import Mathlib

/-!
Verification development for the FairFindz extension core:
page-signal extraction (price / rating / image), domain classification,
relevance scoring, catalog matching, and the navigation-aware state
handling, shallowly embedded from `src/content/content.js` (the later,
authoritative copies of each function) and the background script
(`src/unnamed/part_002`).

Text is modelled as `List Char`.  JavaScript regexes are transcribed into
a small total backtracking matcher (`RE` / `matchRE`) so that each regex
in the source corresponds to one `RE` term of the same shape.
-/

set_option maxRecDepth 20000

/-- Text as a list of characters (the JS string model). -/
abbrev Str := List Char

/-- Convert a Lean string literal to the `Str` model. -/
def chars (s : String) : Str := s.data

/-- Whitespace per the JavaScript `\s` class and `String.prototype.trim`
(ASCII whitespace plus the common Unicode space characters). -/
def isJsWhitespace (c : Char) : Bool :=
  (9 ≤ c.toNat && c.toNat ≤ 13) || c == ' ' ||
  c == '\u00A0' || c == '\u1680' ||
  (0x2000 ≤ c.toNat && c.toNat ≤ 0x200a) ||
  c == '\u2028' || c == '\u2029' || c == '\u202F' || c == '\u205F' ||
  c == '\u3000' || c == '\uFEFF'

/-- ASCII alphanumeric, the class `[a-z0-9]` under the `i` flag. -/
def isAsciiAlnum (c : Char) : Bool := c.isAlphanum

/-- Model of `String.prototype.toLowerCase` (ASCII case folding, which is
all the source relies on for its markers and keywords). -/
def jsToLowerCase (s : Str) : Str := s.map Char.toLower

/-- Model of `String.prototype.toUpperCase` (ASCII case folding). -/
def jsToUpperCase (s : Str) : Str := s.map Char.toUpper

/-- Does `s` start with `p` (case-sensitive)? -/
def startsWithStr (s p : Str) : Bool :=
  match p, s with
  | [], _ => true
  | _ :: _, [] => false
  | b :: bs, a :: as => b == a && startsWithStr as bs

/-- Does `s` end with `p` (case-sensitive)? -/
def endsWithStr (s p : Str) : Bool := startsWithStr s.reverse p.reverse

/-- Model of `String.prototype.indexOf` for a literal search string. -/
def indexOfSubAux : Str → Str → Nat → Option Nat
  | cs, pat, i =>
    if startsWithStr cs pat then some i
    else
      match cs with
      | [] => none
      | _ :: rest => indexOfSubAux rest pat (i + 1)

/-- First index of `pat` inside `s`, if any (JS `indexOf` with `-1` as `none`). -/
def indexOfSub (s pat : Str) : Option Nat := indexOfSubAux s pat 0

/-- Model of `String.prototype.includes`. -/
def containsSub (s pat : Str) : Bool := (indexOfSub s pat).isSome

/-- Model of `String.prototype.trim` (strip JS whitespace from both ends). -/
def jsTrim (s : Str) : Str :=
  ((s.dropWhile isJsWhitespace).reverse.dropWhile isJsWhitespace).reverse

/-- Model of `.replace(/\\s+/g, " ")`: collapse each maximal whitespace run
to a single space (a leading space in the collapsed tail can only come
from a whitespace run, so adjacent runs merge). -/
def collapseWs : Str → Str
  | [] => []
  | c :: cs =>
    if isJsWhitespace c then
      match collapseWs cs with
      | [] => [' ']
      | d :: ds => if d == ' ' then ' ' :: ds else ' ' :: d :: ds
    else c :: collapseWs cs

/-- Model of `String.prototype.slice` with already-clamped indices
(the source always clamps via `Math.max` / `Math.min`). -/
def jsSlice (s : Str) (start stop : Nat) : Str := (s.drop start).take (stop - start)

/-- Embedding of `normalizeText` (content.js line 1552): lower-case,
normalize apostrophes, collapse whitespace, trim. -/
def normalizeText (s : Str) : Str :=
  jsTrim (collapseWs ((jsToLowerCase s).map (fun c => if c == '\u2019' then '\'' else c)))

/-- Maximal ASCII-alphanumeric runs of a string: the non-empty parts of a
JS `split(/[^a-z0-9]+/i)`. -/
def splitAlnumTokens : Str → List Str
  | [] => []
  | c :: cs =>
    if isAsciiAlnum c then
      match cs, splitAlnumTokens cs with
      | d :: _, t :: ts => if isAsciiAlnum d then (c :: t) :: ts else [c] :: t :: ts
      | _, toks => [c] :: toks
    else splitAlnumTokens cs

/-- Fuelled worker for `replaceAllSub`; every step consumes at least one
input character, so fuel equal to the input length always suffices. -/
def replaceAllSubAux (pat repl : Str) : Nat → Str → Str
  | 0, s => s
  | _, [] => []
  | fuel + 1, c :: cs =>
    if !pat.isEmpty && startsWithStr (c :: cs) pat then
      repl ++ replaceAllSubAux pat repl fuel (cs.drop (pat.length - 1))
    else c :: replaceAllSubAux pat repl fuel cs

/-- Replace all (leftmost, non-overlapping) occurrences of `pat` by
`repl`, the behaviour of a JS global replace with a literal pattern. -/
def replaceAllSub (pat repl : Str) (s : Str) : Str :=
  replaceAllSubAux pat repl s.length s

/-- Keep the first occurrence of each element (JS `Array.from(new Set(xs))`). -/
def dedupKeepFirstAux : List Str → List Str → List Str
  | _, [] => []
  | seen, x :: xs =>
    if seen.contains x then dedupKeepFirstAux seen xs
    else x :: dedupKeepFirstAux (x :: seen) xs

/-- Deduplicate preserving first-occurrence order. -/
def dedupKeepFirst (xs : List Str) : List Str := dedupKeepFirstAux [] xs

/-- Digit-string value (used under JS `Number` on comma-stripped digits). -/
def digitsToNat (s : Str) : Nat :=
  s.foldl (fun a c => a * 10 + (c.toNat - '0'.toNat)) 0

/-- Exact rational value of the decimal `ip.fp` (built with `mkRat` so
the kernel can evaluate it). -/
def decimalValQ (ip fp : Str) : ℚ :=
  mkRat (digitsToNat ip * 10 ^ fp.length + digitsToNat fp) (10 ^ fp.length)

/-- JS `Number()` on a string containing only digits and dots
(`none` models `NaN`; the empty string converts to `0`). -/
def jsNumOfStripped (s : Str) : Option ℚ :=
  if s.isEmpty then some 0
  else
    let ip := s.takeWhile (fun c => c != '.')
    let rest := s.dropWhile (fun c => c != '.')
    match rest with
    | [] => some (mkRat (digitsToNat ip) 1)
    | _ :: fp =>
      if fp.any (fun c => c == '.') then none
      else if ip.isEmpty && fp.isEmpty then none
      else some (decimalValQ ip fp)

/-- Embedding of `Number(text.replace(/[^0-9.]/g, ""))`, the numeric
parse applied to price texts throughout the source. -/
def jsParsePriceNum (text : Str) : Option ℚ :=
  jsNumOfStripped (text.filter (fun c => c.isDigit || c == '.'))

/-! ## A small total backtracking regex matcher

The source's regexes use only: literals, character classes, alternation,
optional parts, greedy or lazy class repetition (`*`, `+`, `{m,n}`),
one-level capture groups, and the `^`, `$`, `\b` assertions.  Each JS
regex below is transcribed into one `RE` term of the same shape. -/

/-- Regex abstract syntax (the fragment used by the source's patterns). -/
inductive RE where
  | eps
  | bos
  | eos
  | wordB
  | cls (p : Char → Bool)
  | lit (ci : Bool) (s : Str)
  | seq (a b : RE)
  | alt (a b : RE)
  | opt (r : RE)
  | rep (p : Char → Bool) (lo : Nat) (hi : Option Nat) (lazyQ : Bool)
  | grp (r : RE)

/-- Concatenate a list of regex parts. -/
def reCat (rs : List RE) : RE := rs.foldr RE.seq RE.eps

/-- Captured groups, in completion order. -/
abbrev Caps := List Str

/-- Result of a successful match continuation: the character before the
current position, the remaining input, and the captures so far. -/
abbrev MatchRes := Option Char × Str × Caps

/-- Continuation style matcher result. -/
abbrev MatchCont := Option Char → Str → Caps → Option MatchRes

/-- Case-insensitive (ASCII) or exact character comparison. -/
def charEqCi (ci : Bool) (a b : Char) : Bool :=
  if ci then a.toLower == b.toLower else a == b

/-- Does the input start with the literal (under the given case mode)? -/
def litTest (ci : Bool) (pat cs : Str) : Bool :=
  match pat with
  | [] => true
  | p :: ps =>
    match cs with
    | [] => false
    | c :: cs2 => charEqCi ci p c && litTest ci ps cs2

/-- Is an optional character a JS word character (`\w`)? -/
def isWordCharOpt : Option Char → Bool
  | none => false
  | some c => c.isAlphanum || c == '_'

/-- The character preceding the position reached after consuming `n`
characters of `cs` (falling back to the previous `prev`). -/
def prevAfter (prev : Option Char) (cs : Str) (n : Nat) : Option Char :=
  if n = 0 then prev else ((cs.take n).getLast?).orElse (fun _ => prev)

/-- Try each candidate repetition count in order; first success wins. -/
def tryCounts (f : Nat → Option MatchRes) : List Nat → Option MatchRes
  | [] => none
  | n :: ns => (f n).orElse (fun _ => tryCounts f ns)

/-- Backtracking matcher: match `r` at the start of `cs` (with `prev` the
character just before it), then run the continuation `k`. -/
def matchRE : RE → Option Char → Str → Caps → MatchCont → Option MatchRes
  | .eps, prev, cs, caps, k => k prev cs caps
  | .bos, prev, cs, caps, k => if prev.isNone then k prev cs caps else none
  | .eos, prev, cs, caps, k => if cs.isEmpty then k prev cs caps else none
  | .wordB, prev, cs, caps, k =>
      if isWordCharOpt prev != isWordCharOpt cs.head? then k prev cs caps else none
  | .cls p, prev, cs, caps, k =>
      match cs with
      | [] => none
      | c :: rest => if p c then k (some c) rest caps else none
  | .lit ci s, prev, cs, caps, k =>
      if litTest ci s cs then k (prevAfter prev cs s.length) (cs.drop s.length) caps
      else none
  | .seq a b, prev, cs, caps, k =>
      matchRE a prev cs caps (fun p2 cs2 caps2 => matchRE b p2 cs2 caps2 k)
  | .alt a b, prev, cs, caps, k =>
      (matchRE a prev cs caps k).orElse (fun _ => matchRE b prev cs caps k)
  | .opt r, prev, cs, caps, k =>
      (matchRE r prev cs caps k).orElse (fun _ => k prev cs caps)
  | .grp r, prev, cs, caps, k =>
      matchRE r prev cs caps
        (fun p2 cs2 caps2 => k p2 cs2 (caps2 ++ [cs.take (cs.length - cs2.length)]))
  | .rep p lo hi lazyQ, prev, cs, caps, k =>
      let maxAvail := (cs.takeWhile p).length
      let maxN := match hi with | none => maxAvail | some h => min maxAvail h
      if lo > maxN then none
      else
        let counts := (List.range (maxN + 1 - lo)).map
          (fun i => if lazyQ then lo + i else maxN - i)
        tryCounts (fun n => k (prevAfter prev cs n) (cs.drop n) caps) counts

/-- Run `r` anchored at the current position; returns consumed length and
captures. -/
def reRunAt (r : RE) (prev : Option Char) (cs : Str) : Option (Nat × Caps) :=
  match matchRE r prev cs [] (fun p rest caps => some (p, rest, caps)) with
  | some (_, rest, caps) => some (cs.length - rest.length, caps)
  | none => none

/-- Search for the first match of `r` at or after the current position
(`idx` is the absolute index of `cs` within the original input). -/
def reFindAux (r : RE) (prev : Option Char) (cs : Str) (idx : Nat) :
    Option (Nat × Nat × Caps) :=
  match reRunAt r prev cs with
  | some (len, caps) => some (idx, len, caps)
  | none =>
    match cs with
    | [] => none
    | c :: rest => reFindAux r (some c) rest (idx + 1)

/-- Model of `String.prototype.match` / `RegExp.prototype.exec` without the
`g` flag: index, length and captures of the first match. -/
def reFind (r : RE) (s : Str) : Option (Nat × Nat × Caps) := reFindAux r none s 0

/-- Model of `RegExp.prototype.test` (unanchored search). -/
def reTest (r : RE) (s : Str) : Bool := (reFind r s).isSome

/-- Model of a `^`-anchored `test`/`match` (match at position 0 only). -/
def reTestAt0 (r : RE) (s : Str) : Bool := (reRunAt r none s).isSome

/-- Collect every match of a global regex, advancing past each match the
way a JS `exec` loop does.  The fuel argument is an upper bound on the
number of scan steps (`s.length + 1` always suffices). -/
def reFindAllAux (r : RE) : Option Char → Str → Nat → Nat → List (Nat × Nat × Caps)
  | _, _, _, 0 => []
  | prev, cs, idx, fuel + 1 =>
    match reFindAux r prev cs idx with
    | none => []
    | some (i, len, caps) =>
      let adv := (i - idx) + max len 1
      let prev2 := ((cs.take adv).getLast?).orElse (fun _ => prev)
      (i, len, caps) :: reFindAllAux r prev2 (cs.drop adv) (idx + adv) fuel

/-- Model of a `g`-flag `exec` loop collecting all matches. -/
def reFindAll (r : RE) (s : Str) : List (Nat × Nat × Caps) :=
  reFindAllAux r none s 0 (s.length + 1)

/-- The matched text of a find result within the original input. -/
def reMatchedText (s : Str) (i len : Nat) : Str := (s.drop i).take len

/-- First capture group of a find result (JS `m[1]`). -/
def cap1 (caps : Caps) : Option Str := caps.head?

/-- Character class `["']`. -/
def isQuoteChar (c : Char) : Bool := c == '"' || c == '\''

/-- Character class `[\d,]` / `[0-9,]`. -/
def isDigitOrComma (c : Char) : Bool := c.isDigit || c == ','

/-- Character class `[\s\S]` (any character). -/
def anyChar (_ : Char) : Bool := true

/-! ## Data model: catalog entries and extracted page facts -/

/-- A catalog entry as normalized by `loadSupabaseProducts` /
`loadBusinessesProducts` (content.js): ratings and review counts are
numbers, optional text fields default to the empty string, and
`availability` is absent (`none`) unless the row carries one. -/
structure DbProduct where
  id : Str
  name : Str
  brand : Str
  category : Str
  price : Str
  rating : ℚ
  reviewCount : ℚ
  imageUrl : Str
  productUrl : Str
  description : Str
  badges : List Str
  amazonKeywords : List Str
  amazonCategories : List Str
  availability : Option Str
deriving DecidableEq

/-- The set of coarse shopping domains built by `detectDomainsFromText`
(content.js line 1762), one flag per `domains.add` call site. -/
structure Domains where
  supplements : Bool
  coffee : Bool
  grocery : Bool
  oralcare : Bool
  household : Bool
  skincare : Bool
  travel : Bool
  appliances : Bool
  candle : Bool
deriving DecidableEq

/-- The JS `Set.prototype.size === 0` test on a `Domains` value. -/
def Domains.isEmptyDom (d : Domains) : Bool :=
  !(d.supplements || d.coffee || d.grocery || d.oralcare || d.household ||
    d.skincare || d.travel || d.appliances || d.candle)

/-- Page facts assembled by `extractAmazonProduct` (content.js line 1591),
plus the `pageDomains` field that `matchProducts` splices in before
calling `scoreProduct`. -/
structure PageInfo where
  category : Str
  title : Str
  breadcrumbs : Str
  features : Str
  description : Str
  priceText : Str
  combinedText : Str
  pageDomains : Option Domains
deriving DecidableEq

/-- Result record of `scoreProduct`. -/
structure ScoreResult where
  score : ℤ
  keywordMatches : Nat
  matchedKeywords : List Str
deriving DecidableEq

/-- One scored catalog candidate inside `matchProducts`. -/
structure ScoredEntry where
  product : DbProduct
  score : ℤ
  keywordMatches : Nat
  matchedKeywords : List Str
deriving DecidableEq

/-- Result of `matchProducts`: the capped list and the full scored list. -/
structure MatchResult where
  top : List ScoredEntry
  scored : List ScoredEntry
deriving DecidableEq

/-- The `hasAny` helper of `detectDomainsFromText`: does the normalized
text contain any of the words? -/
def hasAnyWord (t : Str) (ws : List Str) : Bool := ws.any (fun w => containsSub t w)

/-- Embedding of `detectDomainsFromText` (content.js line 1762). -/
def detectDomainsFromText (text : Str) : Domains :=
  let t := normalizeText text
  { supplements := hasAnyWord t [chars "collagen", chars "peptides", chars "supplement",
      chars "supplements", chars "vitamin", chars "vitamins", chars "multivitamin",
      chars "protein powder"]
    coffee := hasAnyWord t [chars "coffee", chars "espresso", chars "beans",
      chars "roast", chars "k-cup", chars "keurig"]
    grocery := hasAnyWord t [chars "olive oil", chars "extra virgin", chars "evoo",
      chars "cold pressed", chars "cold-pressed", chars "avocado oil",
      chars "cooking oil", chars "sunflower oil", chars "grapeseed oil",
      chars "sesame oil"]
    oralcare := hasAnyWord t [chars "toothpaste", chars "tooth paste", chars "mouthwash",
      chars "oral care", chars "toothbrush", chars "teeth", chars "gum",
      chars "gingivitis"]
    household := hasAnyWord t [chars "laundry", chars "detergent", chars "dish soap",
      chars "cleaner", chars "cleaning", chars "soap"]
    skincare := hasAnyWord t [chars "skincare", chars "moisturizer", chars "serum",
      chars "cleanser", chars "sunscreen", chars "lotion", chars "brightening"]
    travel := hasAnyWord t [chars "luggage", chars "suitcase", chars "travel",
      chars "wheels", chars "accessories", chars "accessory"]
    appliances := hasAnyWord t [chars "vacuum", chars "vacuuming", chars "robot vacuum",
      chars "robotic vacuum", chars "mop", chars "mopping", chars "suction",
      chars "dustbin", chars "self-emptying"]
    candle := hasAnyWord t [chars "candle", chars "candles", chars "wax",
      chars "scented", chars "aroma", chars "fragrance", chars "pillar",
      chars "votive", chars "tin", chars "jar candle"] }

/-- Embedding of `getProductDomains` (content.js line 1801). -/
def getProductDomains (p : DbProduct) : Domains :=
  detectDomainsFromText
    (p.name ++ chars " " ++ p.brand ++ chars " " ++
     (List.intercalate (chars " ") p.amazonCategories) ++ chars " " ++ p.category)

/-- The `Array.from(pageDomains).some((d) => productDomains.has(d))` check. -/
def domainsOverlap (a b : Domains) : Bool :=
  (a.supplements && b.supplements) || (a.coffee && b.coffee) ||
  (a.grocery && b.grocery) || (a.oralcare && b.oralcare) ||
  (a.household && b.household) || (a.skincare && b.skincare) ||
  (a.travel && b.travel) || (a.appliances && b.appliances) ||
  (a.candle && b.candle)

/-! ## Relevance scorer (`scoreProduct`, content.js line 1636)

The local constants of the JS function are hoisted into named
definitions so the theorems can refer to them. -/

/-- The stopword set used when deriving fallback keywords. -/
def stopwordTokens : List Str :=
  [chars "with", chars "from", chars "that", chars "this", chars "your",
   chars "their", chars "amazon", chars "com", chars "pack", chars "count",
   chars "size", chars "ounce", chars "ounces", chars "pound", chars "pounds",
   chars "grams", chars "fresh", chars "medium", chars "large", chars "small",
   chars "black", chars "owned"]

/-- Fallback keywords from name + brand: alphanumeric tokens of length at
least 5 that are not stopwords. -/
def fallbackKeywords (p : DbProduct) : List Str :=
  (splitAlnumTokens (p.name ++ chars " " ++ p.brand)).filter
    (fun t => decide (5 ≤ t.length) && !(stopwordTokens.contains (jsToLowerCase t)))

/-- `effectiveKeywords`: explicit keyword hints if present, otherwise the
deduplicated fallback keywords. -/
def effectiveKeywords (p : DbProduct) : List Str :=
  if p.amazonKeywords.isEmpty then dedupKeepFirst (fallbackKeywords p)
  else p.amazonKeywords

/-- The `matched` list: keywords whose normalized form is non-empty and
occurs in the page's combined search text. -/
def matchedKeywordsOf (p : DbProduct) (info : PageInfo) : List Str :=
  (effectiveKeywords p).filter (fun kwRaw =>
    let kw := normalizeText kwRaw
    !kw.isEmpty && containsSub info.combinedText kw)

/-- The `brandMatches` flag: the normalized brand is non-empty and occurs
in the combined search text. -/
def brandMatchesB (p : DbProduct) (info : PageInfo) : Bool :=
  let bt := normalizeText p.brand
  !bt.isEmpty && containsSub info.combinedText bt

/-- `productTextForIntent`: name + category + amazon categories. -/
def productTextForIntent (p : DbProduct) : Str :=
  normalizeText (p.name ++ chars " " ++ p.category ++ chars " " ++
    List.intercalate (chars " ") p.amazonCategories)

/-- `pageTextForIntent`: title + breadcrumbs + features + description. -/
def pageTextForIntent (info : PageInfo) : Str :=
  normalizeText (info.title ++ chars " " ++ info.breadcrumbs ++ chars " " ++
    info.features ++ chars " " ++ info.description)

/-- The `pageWantsCollagen` flag. -/
def pageWantsCollagenB (info : PageInfo) : Bool :=
  containsSub (pageTextForIntent info) (chars "collagen") ||
  containsSub (pageTextForIntent info) (chars "peptides")

/-- Does the candidate's intent text mention collagen or peptides? -/
def productIntentCollagenB (p : DbProduct) : Bool :=
  containsSub (productTextForIntent p) (chars "collagen") ||
  containsSub (productTextForIntent p) (chars "peptides")

/-- The generic keyword set (`coffee`, `candle`, `candles`). -/
def genericKeywordTexts : List Str := [chars "coffee", chars "candle", chars "candles"]

/-- Count of matched keywords that are not in the generic set. -/
def nonGenericMatchCount (p : DbProduct) (info : PageInfo) : Nat :=
  ((matchedKeywordsOf p info).filter
    (fun kw => !(genericKeywordTexts.contains (normalizeText kw)))).length

/-- `allowSingleKeywordByDomain`: the page's domain set exists and holds
one of the permissive domains. -/
def allowSingleKeywordByDomainB (info : PageInfo) : Bool :=
  match info.pageDomains with
  | none => false
  | some d => d.oralcare || d.skincare || d.household || d.coffee || d.supplements

/-- `minKeywordMatches`: 1 under brand affinity or a permissive domain,
otherwise 2. -/
def minKeywordMatchesOf (p : DbProduct) (info : PageInfo) : Nat :=
  if brandMatchesB p info || allowSingleKeywordByDomainB info then 1 else 2

/-- Tiered rating bonus of `scoreProduct` (content.js lines 1749-1752). -/
def ratingTier (r : ℚ) : ℤ :=
  if 5 ≤ r then 10 else if mkRat 45 10 ≤ r then 7
  else if mkRat 42 10 ≤ r then 4 else if 4 ≤ r then 2 else 0

/-- Tiered review-count bonus of `scoreProduct` (lines 1754-1757). -/
def reviewTier (rc : ℚ) : ℤ :=
  if 5000 ≤ rc then 10 else if 1000 ≤ rc then 7
  else if 300 ≤ rc then 4 else if 100 ≤ rc then 2 else 0

/-- The additive score accumulated once both gates pass (lines 1733-1758). -/
def scoreValue (p : DbProduct) (info : PageInfo) : ℤ :=
  (if pageWantsCollagenB info && productIntentCollagenB p then 80 else 0) +
  (if info.category != chars "unknown" && p.category == info.category then 60 else 20) +
  12 * ((matchedKeywordsOf p info).length : ℤ) +
  (if brandMatchesB p info then 20 else 0) +
  ratingTier p.rating + reviewTier p.reviewCount

/-- Embedding of `scoreProduct` (content.js line 1636): the minimum
evidence gate, the collagen intent rule, then the additive score. -/
def scoreProduct (p : DbProduct) (info : PageInfo) : ScoreResult :=
  if (matchedKeywordsOf p info).length < minKeywordMatchesOf p info
      || nonGenericMatchCount p info < 1 then
    ⟨0, (matchedKeywordsOf p info).length, matchedKeywordsOf p info⟩
  else if pageWantsCollagenB info && !productIntentCollagenB p
      && !brandMatchesB p info then
    ⟨0, (matchedKeywordsOf p info).length, matchedKeywordsOf p info⟩
  else
    ⟨scoreValue p info, (matchedKeywordsOf p info).length, matchedKeywordsOf p info⟩

/-! ## Catalog matcher (`matchProducts`, content.js line 1806) -/

/-- The comparator of `matchProducts` as a stable-sort precedence test:
score, then keyword matches, then rating, then review count, all
descending (`a` may come before `b`). -/
def scoredLeB (a b : ScoredEntry) : Bool :=
  decide (b.score < a.score) ||
  (a.score == b.score &&
    (decide (b.keywordMatches < a.keywordMatches) ||
     (a.keywordMatches == b.keywordMatches &&
       (decide (b.product.rating < a.product.rating) ||
        (a.product.rating == b.product.rating &&
          decide (b.product.reviewCount ≤ a.product.reviewCount))))))

/-- The in-stock filter (`availability !== "out_of_stock"`). -/
def inStockFilter (products : List DbProduct) : List DbProduct :=
  products.filter (fun p => p.availability != some (chars "out_of_stock"))

/-- The page-domain text used for gating: title + breadcrumbs. -/
def pageDomainTextOf (info : PageInfo) : Str :=
  info.title ++ chars " " ++ info.breadcrumbs

/-- Embedding of `matchProducts` (content.js line 1806). -/
def matchProducts (info : PageInfo) (products : List DbProduct)
    (limit : Nat := 3) : MatchResult :=
  let inStock := inStockFilter products
  let pageDomains := detectDomainsFromText (pageDomainTextOf info)
  let currentBrandText := normalizeText info.title
  if pageDomains.isEmptyDom then ⟨[], []⟩
  else if !(inStock.any (fun p => domainsOverlap pageDomains (getProductDomains p))) then
    ⟨[], []⟩
  else
    let categoryPool := inStock.filter (fun p =>
      let productDomains := getProductDomains p
      if domainsOverlap pageDomains productDomains then true
      else if pageDomains.supplements && productDomains.supplements then
        let bt := normalizeText p.brand
        !bt.isEmpty && containsSub currentBrandText bt
      else false)
    let scored :=
      ((categoryPool.map (fun p =>
          let r := scoreProduct p { info with pageDomains := some pageDomains }
          ScoredEntry.mk p r.score r.keywordMatches r.matchedKeywords)).filter
        (fun x => decide (0 < x.score))).mergeSort scoredLeB
    ⟨scored.take limit, scored⟩

/-! ## URL model and item-identifier (ASIN) extraction -/

/-- Parsed URL pieces used by the source (`protocol`, `hostname`,
`pathname`). -/
structure JsUrl where
  protocol : Str
  hostname : Str
  pathname : Str
deriving DecidableEq

/-- Scheme characters accepted before the `:`. -/
def isSchemeChar (c : Char) : Bool :=
  c.isAlphanum || c == '+' || c == '-' || c == '.'

/-- Modelled platform API: the browser `new URL(...)` constructor, for the
common `scheme://host[:port]/path?query` shape the source deals in.
Other inputs (no `://`, empty host, userinfo) are treated as parse
failures, which the source catches and maps to `false` / `null`. -/
def jsUrlParse (s : Str) : Option JsUrl :=
  let t := jsTrim s
  let scheme := t.takeWhile isSchemeChar
  let rest := t.drop scheme.length
  match scheme.head? with
  | none => none
  | some c0 =>
    if !c0.isAlpha then none
    else
      match rest with
      | ':' :: '/' :: '/' :: rest2 =>
        let authority := rest2.takeWhile (fun c => c != '/' && c != '?' && c != '#')
        let afterAuth := rest2.drop authority.length
        if authority.isEmpty || authority.contains '@' then none
        else
          let host := authority.takeWhile (fun c => c != ':')
          if host.isEmpty then none
          else
            let pathname := afterAuth.takeWhile (fun c => c != '?' && c != '#')
            some { protocol := jsToLowerCase scheme ++ [':']
                   hostname := jsToLowerCase host
                   pathname := if pathname.isEmpty then ['/'] else pathname }
      | _ => none

/-- The hostname test `(^|\.)target$` (case-insensitive): the host equals
the target or ends with `"." ++ target`. -/
def hostMatchesDotSuffix (target : Str) (h : Str) : Bool :=
  let hl := jsToLowerCase h
  hl == target || endsWithStr hl ('.' :: target)

/-- Embedding of `isValidAmazonImageUrl` (content.js line 1258): `https`
scheme and hostname matching `(^|\.)m\.media-amazon\.com$`. -/
def isValidAmazonImageUrl (urlString : Str) : Bool :=
  match jsUrlParse urlString with
  | none => false
  | some u =>
    hostMatchesDotSuffix (chars "m.media-amazon.com") u.hostname &&
    u.protocol == chars "https:"

/-- Embedding of `isAmazonUrl` (background script line 99). -/
def isAmazonUrl (urlString : Str) : Bool :=
  match jsUrlParse urlString with
  | none => false
  | some u =>
    hostMatchesDotSuffix (chars "amazon.com") u.hostname &&
    (u.protocol == chars "https:" || u.protocol == chars "http:")

/-- Shorthand: `\s*`. -/
def reWs : RE := .rep isJsWhitespace 0 none false

/-- Shorthand: `\s+`. -/
def reWs1 : RE := .rep isJsWhitespace 1 none false

/-- The `(?:[/?]|$)` tail of the content-script ASIN patterns. -/
def asinTailRe : RE := .alt (.cls (fun c => c == '/' || c == '?')) .eos

/-- Regex `\/dp\/([A-Z0-9]{10})(?:[/?]|$)` with the `i` flag. -/
def amazonAsinDpRe : RE :=
  reCat [.lit true (chars "/dp/"), .grp (.rep isAsciiAlnum 10 (some 10) false),
         asinTailRe]

/-- Regex `\/gp\/product\/([A-Z0-9]{10})(?:[/?]|$)` with the `i` flag. -/
def amazonAsinGpRe : RE :=
  reCat [.lit true (chars "/gp/product/"), .grp (.rep isAsciiAlnum 10 (some 10) false),
         asinTailRe]

/-- Regex `[?&]asin=([A-Z0-9]{10})(?:&|$)` with the `i` flag. -/
def amazonAsinQueryRe : RE :=
  reCat [.cls (fun c => c == '?' || c == '&'), .lit true (chars "asin="),
         .grp (.rep isAsciiAlnum 10 (some 10) false),
         .alt (.cls (fun c => c == '&')) .eos]

/-- Embedding of `extractAmazonAsinFromUrl` (content.js line 1560): try
the three URL patterns in order, upper-casing the captured identifier. -/
def extractAmazonAsinFromUrl (url : Str) : Option Str :=
  if url.isEmpty then none
  else
    match (reFind amazonAsinDpRe url).bind (fun t => cap1 t.2.2) with
    | some a => some (jsToUpperCase a)
    | none =>
      match (reFind amazonAsinGpRe url).bind (fun t => cap1 t.2.2) with
      | some a => some (jsToUpperCase a)
      | none =>
        match (reFind amazonAsinQueryRe url).bind (fun t => cap1 t.2.2) with
        | some a => some (jsToUpperCase a)
        | none => none

/-- Embedding of `isCurrentAmazonProductInDatabase` (content.js line
1580), with the current location's URL passed explicitly. -/
def isCurrentAmazonProductInDatabase (href : Str) (products : List DbProduct) : Bool :=
  match extractAmazonAsinFromUrl href with
  | none => false
  | some currentAsin =>
    products.any (fun p =>
      match extractAmazonAsinFromUrl p.productUrl with
      | some asin => asin == currentAsin
      | none => false)

/-- Regex `\b(?:dp|gp\/product)\/([A-Z0-9]{10})\b` with the `i` flag. -/
def asinPathRe : RE :=
  reCat [.wordB, .alt (.lit true (chars "dp")) (.lit true (chars "gp/product")),
         .lit false (chars "/"), .grp (.rep isAsciiAlnum 10 (some 10) false), .wordB]

/-- Embedding of the background script's `extractAsinFromUrl` (line 108):
parse the URL and search the ASIN pattern in its pathname. -/
def extractAsinFromUrl (urlString : Str) : Option Str :=
  match jsUrlParse urlString with
  | none => none
  | some u =>
    match (reFind asinPathRe u.pathname).bind (fun t => cap1 t.2.2) with
    | some a => if a.isEmpty then none else some a
    | none => none

/-! ## Noise guard and price plausibility -/

/-- The fixed interstitial / captcha markers checked at the top of every
extractor in the background script. -/
def noiseMarkers : List Str :=
  [chars "type the characters you see", chars "enter the characters you see",
   chars "automated access", chars "robot check", chars "captcha"]

/-- The noise guard: does the lower-cased markup contain any marker? -/
def hasNoiseMarkers (html : Str) : Bool :=
  let lowered := jsToLowerCase html
  noiseMarkers.any (fun m => containsSub lowered m)

/-- Regex `^\$\s*\d[\d,]*\.\d{2}$`. -/
def plausiblePriceRe : RE :=
  reCat [.lit false (chars "$"), reWs, .cls Char.isDigit,
         .rep isDigitOrComma 0 none false, .lit false (chars "."),
         .cls Char.isDigit, .cls Char.isDigit, .eos]

/-- The suffix of `plausiblePriceRe` from the decimal point on. -/
def plausibleTailRe : RE :=
  .seq (.lit false (chars ".")) (.seq (.cls Char.isDigit)
    (.seq (.cls Char.isDigit) (.seq .eos .eps)))

/-- The suffix of `plausiblePriceRe` from the first digit on. -/
def plausibleDigitsRe : RE :=
  .seq (.cls Char.isDigit) (.seq (.rep isDigitOrComma 0 none false) plausibleTailRe)

/-- Embedding of `isPlausibleAmazonPriceText` (background script line
118): trim, then the anchored format test. -/
def isPlausibleAmazonPriceText (priceText : Str) : Bool :=
  reTestAt0 plausiblePriceRe (jsTrim priceText)

/-! ## Price extraction (`extractPriceFromHtml`, background line 350) -/

/-- A collected price candidate (`{ text, numeric }`). -/
structure PriceCand where
  text : Str
  numeric : ℚ
deriving DecidableEq

/-- The money shape `\$\s*\d[\d,]*\.?\d{0,2}`. -/
def moneyRe : RE :=
  reCat [.lit false (chars "$"), reWs, .cls Char.isDigit,
         .rep isDigitOrComma 0 none false, .opt (.lit false (chars ".")),
         .rep Char.isDigit 0 (some 2) false]

/-- Regex `"displayPrice"\s*:\s*"(\$\s*\d[\d,]*\.?\d{0,2})"` (`gi`). -/
def displayPriceRe : RE :=
  reCat [.lit true (chars "\"displayPrice\""), reWs, .lit false (chars ":"), reWs,
         .lit false (chars "\""), .grp moneyRe, .lit false (chars "\"")]

/-- Regex `/^\$\s*\d/` used to vet captured price texts. -/
def startDollarDigitRe : RE :=
  reCat [.lit false (chars "$"), reWs, .cls Char.isDigit]

/-- Regex `/\.[0-9]{2}$/`: the text ends in a cents component. -/
def centsEndRe : RE :=
  reCat [.lit false (chars "."), .cls Char.isDigit, .cls Char.isDigit, .eos]

/-- Does a candidate text carry a cents component? -/
def hasCentsB (t : Str) : Bool := reTest centsEndRe t

/-- All `(index, trimmed capture)` pairs of the global `displayPrice`
scan over the anchored window. -/
def displayPriceMatches (w : Str) : List (Nat × Str) :=
  (reFindAll displayPriceRe w).filterMap
    (fun t => (cap1 t.2.2).map (fun c => (t.1, jsTrim c)))

/-- The lower-cased context slice around a `displayPrice` match
(`window.slice(max(0, i-160), min(len, i+300))`). -/
def displayCtxAt (w : Str) (i : Nat) : Str :=
  jsToLowerCase (jsSlice w (i - 160) (min w.length (i + 300)))

/-- The coupon/savings context words excluded inside the JSON blob. -/
def jsonCouponCtxB (ctx : Str) : Bool :=
  containsSub ctx (chars "coupon") || containsSub ctx (chars "save") ||
  containsSub ctx (chars "savings") || containsSub ctx (chars "discount") ||
  containsSub ctx (chars "promo") || containsSub ctx (chars "promotion")

/-- Candidates surviving the JSON-stage filters: numeric parse, the `< 5`
floor, and the coupon-context exclusion. -/
def displayPriceCandidates (w : Str) : List PriceCand :=
  (displayPriceMatches w).filterMap (fun m =>
    match jsParsePriceNum m.2 with
    | none => none
    | some numeric =>
      if numeric < 5 then none
      else if jsonCouponCtxB (displayCtxAt w m.1) then none
      else some ⟨m.2, numeric⟩)

/-- One anchor attempt of the JSON price stage: window after the anchor,
candidates, cents-preference, else first candidate. -/
def jsonAnchorPrice (html : Str) (anchor : Str) : Option Str :=
  match indexOfSub html anchor with
  | none => none
  | some idx =>
    let w := jsSlice html idx (idx + 15000)
    let cands := displayPriceCandidates w
    match cands.find? (fun c => hasCentsB c.text) with
    | some c => some c.text
    | none => (cands.head?).map (fun c => c.text)

/-- The JSON-embedded "price to pay" stage: the `"priceToPay"` anchor,
then the `"apexPriceToPay"` anchor. -/
def jsonPriceStage (html : Str) : Option Str :=
  (jsonAnchorPrice html (chars "\"priceToPay\"")).orElse
    (fun _ => jsonAnchorPrice html (chars "\"apexPriceToPay\""))

/-- Regex `id=["']corePriceDisplay_desktop_feature_div["'][\s\S]{0,5000}`. -/
def coreScopeRe : RE :=
  reCat [.lit true (chars "id="), .cls isQuoteChar,
         .lit true (chars "corePriceDisplay_desktop_feature_div"), .cls isQuoteChar,
         .rep anyChar 0 (some 5000) false]

/-- The scoped "core price display" region (`m?.[0] || html`). -/
def priceScope (html : Str) : Str :=
  match reFind coreScopeRe html with
  | some (i, len, _) => reMatchedText html i len
  | none => html

/-- The offscreen-value shape
`class=["']a-offscreen["'][^>]*>\s*([^<\s][^<]{0,20})\s*<`. -/
def offscreenValRe : RE :=
  reCat [.lit true (chars "class="), .cls isQuoteChar, .lit true (chars "a-offscreen"),
         .cls isQuoteChar, .rep (fun c => c != '>') 0 none false,
         .lit false (chars ">"), reWs,
         .grp (reCat [.cls (fun c => c != '<' && !isJsWhitespace c),
                      .rep (fun c => c != '<') 0 (some 20) false]),
         reWs, .lit false (chars "<")]

/-- Regex `priceToPay[\s\S]{0,1200}?class=["']a-offscreen["']...`. -/
def priceToPayRe : RE :=
  reCat [.lit true (chars "priceToPay"), .rep anyChar 0 (some 1200) true, offscreenValRe]

/-- Regex `apexPriceToPay[\s\S]{0,2000}?class=["']a-offscreen["']...`. -/
def apexPriceRe : RE :=
  reCat [.lit true (chars "apexPriceToPay"), .rep anyChar 0 (some 2000) true,
         offscreenValRe]

/-- Regex `id=["']apexPriceToPay["'][\s\S]{0,3500}?class=["']a-offscreen["']...`. -/
def apexPriceAltRe : RE :=
  reCat [.lit true (chars "id="), .cls isQuoteChar, .lit true (chars "apexPriceToPay"),
         .cls isQuoteChar, .rep anyChar 0 (some 3500) true, offscreenValRe]

/-- Trimmed capture, kept only when it starts like `$<digit>`
(`m?.[1] && /^\$\s*\d/.test(m[1].trim())`). -/
def dollarCheckedCap (m : Option (Nat × Nat × Caps)) : Option Str :=
  match m.bind (fun t => cap1 t.2.2) with
  | none => none
  | some c =>
    let t := jsTrim c
    if reTestAt0 startDollarDigitRe t then some t else none

/-- Regex `\(\s*(\$\s*\d[\d,]*\.?\d{0,2})\s*\/\s*ounce` applied to the
lower-cased context to identify a parenthesised unit price. -/
def unitParenRe : RE :=
  reCat [.lit false (chars "("), reWs, .grp moneyRe, reWs,
         .lit false (chars "/"), reWs, .lit false (chars "ounce")]

/-- Does the context mark this candidate as the parenthesised unit price? -/
def unitPriceExcluded (ctx text : Str) : Bool :=
  (containsSub ctx (chars "/ounce") || containsSub ctx (chars "/ oz") ||
   containsSub ctx (chars "/oz") || containsSub ctx (chars "per ounce")) &&
  (match (reFind unitParenRe ctx).bind (fun t => cap1 t.2.2) with
   | some unitRaw =>
     (unitRaw.filter (fun c => !isJsWhitespace c)) ==
       (text.filter (fun c => !isJsWhitespace c))
   | none => false)

/-- Strikethrough / list-price contexts excluded by the general scan. -/
def strikeCtxB (ctx : Str) : Bool :=
  containsSub ctx (chars "list price") || containsSub ctx (chars "was:") ||
  containsSub ctx (chars "a-text-price") || containsSub ctx (chars "price was")

/-- The general offscreen scan of the scoped region, with unit-price and
strikethrough exclusions. -/
def offscreenCandidates (scope : Str) : List PriceCand :=
  (reFindAll offscreenValRe scope).filterMap (fun t =>
    match cap1 t.2.2 with
    | none => none
    | some capRaw =>
      let text := jsTrim capRaw
      if !reTestAt0 startDollarDigitRe text then none
      else
        match jsParsePriceNum text with
        | none => none
        | some numeric =>
          let ctx := jsToLowerCase (jsSlice scope (t.1 - 80) (min scope.length (t.1 + 220)))
          if unitPriceExcluded ctx text then none
          else if strikeCtxB ctx then none
          else some ⟨text, numeric⟩)

/-- Regex `id=["']priceblock_(?:ourprice|dealprice|saleprice)["'][^>]*>\s*([^<\s][^<]{0,20})\s*<`. -/
def priceblockRe : RE :=
  reCat [.lit true (chars "id="), .cls isQuoteChar, .lit true (chars "priceblock_"),
         .alt (.lit true (chars "ourprice"))
           (.alt (.lit true (chars "dealprice")) (.lit true (chars "saleprice"))),
         .cls isQuoteChar, .rep (fun c => c != '>') 0 none false,
         .lit false (chars ">"), reWs,
         .grp (reCat [.cls (fun c => c != '<' && !isJsWhitespace c),
                      .rep (fun c => c != '<') 0 (some 20) false]),
         reWs, .lit false (chars "<")]

/-- Regex pairing `a-price-whole` and `a-price-fraction` spans. -/
def wholeFracRe : RE :=
  reCat [.lit true (chars "class="), .cls isQuoteChar, .lit true (chars "a-price-whole"),
         .cls isQuoteChar, .rep (fun c => c != '>') 0 none false,
         .lit false (chars ">"), reWs,
         .grp (reCat [.cls Char.isDigit,
                      .rep (fun c => c.isDigit || c == ',' || c == '.') 0 none false]),
         reWs, .lit true (chars "</span>"), .rep anyChar 0 (some 120) true,
         .lit true (chars "class="), .cls isQuoteChar,
         .lit true (chars "a-price-fraction"), .cls isQuoteChar,
         .rep (fun c => c != '>') 0 none false, .lit false (chars ">"), reWs,
         .grp (reCat [.cls Char.isDigit, .cls Char.isDigit]),
         reWs, .lit true (chars "</span>")]

/-- Embedding of `extractPriceFromHtml` (background line 350): noise
guard, JSON stage, scoped price-to-pay / apex lookups, general offscreen
scan preferring the largest value, priceblock ids, and whole+fraction
reconstruction. -/
def extractPriceFromHtml (html : Str) : Option Str :=
  if html.isEmpty then none
  else if hasNoiseMarkers html then none
  else
    match jsonPriceStage html with
    | some p => some p
    | none =>
      let scope := priceScope html
      match dollarCheckedCap (reFind priceToPayRe scope) with
      | some p => some p
      | none =>
        match dollarCheckedCap (reFind apexPriceRe html) with
        | some p => some p
        | none =>
          match dollarCheckedCap (reFind apexPriceAltRe html) with
          | some p => some p
          | none =>
            match ((offscreenCandidates scope).mergeSort
                (fun a b => decide (b.numeric ≤ a.numeric))).head? with
            | some c => some c.text
            | none =>
              match (reFind priceblockRe scope).bind (fun t => cap1 t.2.2) with
              | some c => some (jsTrim c)
              | none =>
                match reFind wholeFracRe scope with
                | some (_, _, [whole, frac]) =>
                  some ('$' :: (whole.filter (fun c => c != ',')) ++ '.' :: frac)
                | _ => none

/-! ## Mobile price extraction (`extractPriceFromMobileHtml`, line 240) -/

/-- Mobile pattern `id=["']priceblock_(?:ourprice|dealprice|saleprice)["'][^>]*>\s*([^<\s][^<]{0,20})\s*<`. -/
def mobilePriceblockRe : RE := priceblockRe

/-- Mobile pattern `id=["']newBuyBoxPrice["'][^>]*>\s*([^<\s][^<]{0,20})\s*<`. -/
def mobileBuyBoxPriceRe : RE :=
  reCat [.lit true (chars "id="), .cls isQuoteChar, .lit true (chars "newBuyBoxPrice"),
         .cls isQuoteChar, .rep (fun c => c != '>') 0 none false,
         .lit false (chars ">"), reWs,
         .grp (reCat [.cls (fun c => c != '<' && !isJsWhitespace c),
                      .rep (fun c => c != '<') 0 (some 20) false]),
         reWs, .lit false (chars "<")]

/-- Mobile pattern `id=["']buyBoxInner["'][\s\S]{0,3000}?\$\s*\d[\d,]*\.?\d{0,2}`
(note: it has no capture group, so its `m[1]` is never truthy). -/
def mobileBuyBoxInnerRe : RE :=
  reCat [.lit true (chars "id="), .cls isQuoteChar, .lit true (chars "buyBoxInner"),
         .cls isQuoteChar, .rep anyChar 0 (some 3000) true, moneyRe]

/-- One mobile pattern attempt: trimmed capture vetted by `/^\$\s*\d/`. -/
def mobilePatternVal (html : Str) (r : RE) : Option Str :=
  match (reFind r html).bind (fun t => cap1 t.2.2) with
  | none => none
  | some c =>
    if c.isEmpty then none
    else
      let t := jsTrim c
      if reTestAt0 startDollarDigitRe t then some t else none

/-- The coupon/savings context words of the generic mobile scan. -/
def mobileCouponCtxB (ctx : Str) : Bool :=
  containsSub ctx (chars "coupon") || containsSub ctx (chars "save ") ||
  containsSub ctx (chars "save$") || containsSub ctx (chars "savings") ||
  containsSub ctx (chars "discount") || containsSub ctx (chars "promo") ||
  containsSub ctx (chars "promotion") || containsSub ctx (chars "off")

/-- The unit-price context words of the generic mobile scan. -/
def mobileUnitCtxB (ctx : Str) : Bool :=
  containsSub ctx (chars "/ounce") || containsSub ctx (chars "per ounce") ||
  containsSub ctx (chars "/oz") || containsSub ctx (chars "/ oz")

/-- The generic `\$…` scan of the mobile page: first occurrence that is
at least 5 and free of coupon / unit-price context. -/
def firstGoodMobilePrice (html : Str) : List (Nat × Nat × Caps) → Option Str
  | [] => none
  | (i, len, _) :: rest =>
    let text := jsTrim (reMatchedText html i len)
    match jsParsePriceNum text with
    | none => firstGoodMobilePrice html rest
    | some numeric =>
      if numeric < 5 then firstGoodMobilePrice html rest
      else
        let ctx := jsToLowerCase (jsSlice html (i - 120) (min html.length (i + 240)))
        if mobileCouponCtxB ctx then firstGoodMobilePrice html rest
        else if mobileUnitCtxB ctx then firstGoodMobilePrice html rest
        else some text

/-- Embedding of `extractPriceFromMobileHtml` (background line 240). -/
def extractPriceFromMobileHtml (html : Str) : Option Str :=
  if html.isEmpty then none
  else if hasNoiseMarkers html then none
  else
    match mobilePatternVal html mobilePriceblockRe with
    | some p => some p
    | none =>
      match mobilePatternVal html mobileBuyBoxPriceRe with
      | some p => some p
      | none =>
        match mobilePatternVal html mobileBuyBoxInnerRe with
        | some p => some p
        | none => firstGoodMobilePrice html (reFindAll moneyRe html)

/-! ## Rating / review extraction (`extractRatingReviewFromHtml`, line 302) -/

/-- Result record `{ rating, reviewCount }`. -/
structure RatingReview where
  rating : Option ℚ
  reviewCount : Option ℚ
deriving DecidableEq

/-- Regex `id=["']averageCustomerReviews["'][\s\S]{0,2500}` used to scope
parsing to the canonical review widget. -/
def avgScopeRe : RE :=
  reCat [.lit true (chars "id="), .cls isQuoteChar,
         .lit true (chars "averageCustomerReviews"), .cls isQuoteChar,
         .rep anyChar 0 (some 2500) false]

/-- Regex `([0-9]+(?:\.[0-9]+)?)\s*out of\s*5\s*stars` (`i`). -/
def ratingRe : RE :=
  reCat [.grp (reCat [.rep Char.isDigit 1 none false,
                      .opt (reCat [.lit false (chars "."),
                                   .rep Char.isDigit 1 none false])]),
         reWs, .lit true (chars "out of"), reWs, .lit false (chars "5"),
         reWs, .lit true (chars "stars")]

/-- The `(?:global\s+ratings|ratings|rating)` label alternation. -/
def ratingsLabelRe : RE :=
  .alt (reCat [.lit true (chars "global"), reWs1, .lit true (chars "ratings")])
    (.alt (.lit true (chars "ratings")) (.lit true (chars "rating")))

/-- Regex `id=["']acrCustomerReviewText["'][^>]*>\s*([0-9,]+)\s+(?:global\s+ratings|ratings|rating)\s*<`. -/
def acrCountRe : RE :=
  reCat [.lit true (chars "id="), .cls isQuoteChar,
         .lit true (chars "acrCustomerReviewText"), .cls isQuoteChar,
         .rep (fun c => c != '>') 0 none false, .lit false (chars ">"), reWs,
         .grp (.rep isDigitOrComma 1 none false), reWs1, ratingsLabelRe,
         reWs, .lit false (chars "<")]

/-- Fallback regex `([0-9,]+)\s+(?:global\s+ratings|ratings|rating)\b`. -/
def fallbackCountRe : RE :=
  reCat [.grp (.rep isDigitOrComma 1 none false), reWs1, ratingsLabelRe, .wordB]

/-- Parse a captured count: strip the thousands commas, then `Number`. -/
def parseReviewCount (c : Str) : Option ℚ :=
  jsNumOfStripped (c.filter (fun ch => ch != ','))

/-- Embedding of `extractRatingReviewFromHtml` (background line 302). -/
def extractRatingReviewFromHtml (html : Str) : RatingReview :=
  if html.isEmpty then ⟨none, none⟩
  else if hasNoiseMarkers html then ⟨none, none⟩
  else
    let scope :=
      match reFind avgScopeRe html with
      | some (i, len, _) => reMatchedText html i len
      | none => html
    let rating := ((reFind ratingRe scope).bind (fun t => cap1 t.2.2)).bind jsNumOfStripped
    let reviewCount :=
      match ((reFind acrCountRe scope).bind (fun t => cap1 t.2.2)).bind parseReviewCount with
      | some v => some v
      | none =>
        ((reFind fallbackCountRe scope).bind (fun t => cap1 t.2.2)).bind parseReviewCount
    ⟨rating, reviewCount⟩

/-! ## Image extraction (`extractImageUrlFromHtml`, background line 126) -/

/-- JSON string escapes handled by the modelled parser. -/
def jsonEscapeTable : List (Char × Char) :=
  [('n', '\n'), ('t', '\t'), ('r', '\r'), ('b', '\x08'), ('f', '\x0c'),
   ('"', '"'), ('\\', '\\'), ('/', '/')]

def jsonUnescape (c : Char) : Option Char :=
  (jsonEscapeTable.find? (fun p => p.1 == c)).map Prod.snd

/-- Parse a JSON string body after the opening quote: returns the
unescaped content and the remainder after the closing quote. -/
def parseJsonString : Str → Option (Str × Str)
  | [] => none
  | '"' :: rest => some ([], rest)
  | '\\' :: rest =>
    match rest with
    | [] => none
    | c :: rest2 =>
      match jsonUnescape c with
      | none => none
      | some d => (parseJsonString rest2).map (fun p => (d :: p.1, p.2))
  | c :: rest => (parseJsonString rest).map (fun p => (c :: p.1, p.2))

/-- Parse a JSON number (integer or decimal; exponents are outside the
modelled scope and fail). -/
def parseJsonNumber (s : Str) : Option (ℚ × Str) :=
  let neg := s.head? == some '-'
  let s1 := if neg then s.drop 1 else s
  let ip := s1.takeWhile Char.isDigit
  if ip.isEmpty then none
  else
    let r1 := s1.drop ip.length
    match r1 with
    | '.' :: r2 =>
      let fp := r2.takeWhile Char.isDigit
      if fp.isEmpty then none
      else
        let v : Int := (digitsToNat ip * 10 ^ fp.length + digitsToNat fp : Nat)
        some (mkRat (if neg then -v else v) (10 ^ fp.length), r2.drop fp.length)
    | _ =>
      let v : Int := (digitsToNat ip : Nat)
      some (mkRat (if neg then -v else v) 1, r1)

/-- Parse the elements of a JSON array of numbers (after the `[`). -/
def parseJsonNumArrayAux : Nat → Str → Option (List ℚ × Str)
  | 0, _ => none
  | fuel + 1, s =>
    let s1 := s.dropWhile isJsWhitespace
    match s1 with
    | ']' :: r => some ([], r)
    | _ =>
      match parseJsonNumber s1 with
      | none => none
      | some (q, r1) =>
        let r2 := r1.dropWhile isJsWhitespace
        match r2 with
        | ',' :: r3 => (parseJsonNumArrayAux fuel r3).map (fun p => (q :: p.1, p.2))
        | ']' :: r3 => some ([q], r3)
        | _ => none

/-- Parse the entries of a flat JSON object mapping strings to arrays of
numbers (after the `{`). -/
def parseJsonMapAux : Nat → Str → Option (List (Str × List ℚ) × Str)
  | 0, _ => none
  | fuel + 1, s =>
    let s1 := s.dropWhile isJsWhitespace
    match s1 with
    | '\x7d' :: r => some ([], r)
    | '"' :: r =>
      match parseJsonString r with
      | none => none
      | some (key, r1) =>
        let r2 := r1.dropWhile isJsWhitespace
        match r2 with
        | ':' :: r3 =>
          let r4 := r3.dropWhile isJsWhitespace
          match r4 with
          | '[' :: r5 =>
            match parseJsonNumArrayAux (r5.length + 1) r5 with
            | none => none
            | some (dims, r6) =>
              let r7 := r6.dropWhile isJsWhitespace
              match r7 with
              | ',' :: r8 =>
                (parseJsonMapAux fuel r8).map (fun p => ((key, dims) :: p.1, p.2))
              | '\x7d' :: r8 => some ([(key, dims)], r8)
              | _ => none
          | _ => none
        | _ => none
    | _ => none

/-- Modelled platform API: `JSON.parse` restricted to the shape the
dynamic-image handler consumes, a flat object `{ url: [w, h], … }`.
Other JSON shapes are treated as parse failures, which the source
catches and answers with its regex fallback. -/
def parseJsonImageMap (s : Str) : Option (List (Str × List ℚ)) :=
  let s1 := s.dropWhile isJsWhitespace
  match s1 with
  | '\x7b' :: r =>
    match parseJsonMapAux (r.length + 1) r with
    | some (entries, rest) =>
      if (rest.dropWhile isJsWhitespace).isEmpty then some entries else none
    | none => none
  | _ => none

/-- The HTML-entity decoding applied to the dynamic-image attribute. -/
def decodeHtmlEntities (s : Str) : Str :=
  replaceAllSub (chars "&amp;") (chars "&")
    (replaceAllSub (chars "&#34;") (chars "\"")
      (replaceAllSub (chars "&quot;") (chars "\"") s))

/-- `u.includes("\\/") ? u.replace(/\\\//g, "/") : u`. -/
def unescapeSlashes (u : Str) : Str :=
  if containsSub u (chars "\\/") then replaceAllSub (chars "\\/") (chars "/") u else u

/-- Pick the largest-area entry of the dynamic image map (strictly larger
wins, so the first maximum is kept; `bestArea` starts at `-1`). -/
def dynamicImageBest (entries : List (Str × List ℚ)) : Option Str :=
  (entries.foldl
    (fun (acc : Option Str × ℚ) e =>
      let url := unescapeSlashes e.1
      let area : ℚ :=
        match e.2 with
        | w :: h :: _ => w * h
        | _ => 0
      if acc.2 < area then (some url, area) else acc)
    (none, -1)).1

/-- Regex `https?:\\\/\\\/[^\"\s]+` (escaped URL inside the JSON text). -/
def escapedUrlRe : RE :=
  reCat [.lit true (chars "http"), .opt (.lit true (chars "s")), .lit false (chars ":"),
         .lit false (chars "\\/\\/"),
         .rep (fun c => c != '"' && !isJsWhitespace c) 1 none false]

/-- Regex `https?:\/\/[^\"\s]+` (plain URL). -/
def plainUrlRe : RE :=
  reCat [.lit true (chars "http"), .opt (.lit true (chars "s")), .lit false (chars "://"),
         .rep (fun c => c != '"' && !isJsWhitespace c) 1 none false]

/-- The URL-regex fallback of the dynamic-image branch. -/
def dynamicFallback (decoded : Str) : Option Str :=
  match reFind escapedUrlRe decoded with
  | some (i, len, _) =>
    some (replaceAllSub (chars "\\/") (chars "/") (reMatchedText decoded i len))
  | none =>
    match reFind plainUrlRe decoded with
    | some (i, len, _) => some (reMatchedText decoded i len)
    | none => none

/-- Handling of a matched `data-a-dynamic-image` attribute value: entity
decoding, JSON map parse with largest-area pick, else URL fallback. -/
def dynamicImageValue (raw : Str) : Option Str :=
  let decoded := decodeHtmlEntities raw
  match parseJsonImageMap decoded with
  | some entries =>
    match dynamicImageBest entries with
    | some u => some u
    | none => dynamicFallback decoded
  | none => dynamicFallback decoded

/-- The `(https?:[^\"]+)`-style capture with a configurable stop class. -/
def httpUrlGrp (stop : Char → Bool) : RE :=
  .grp (reCat [.lit true (chars "http"), .opt (.lit true (chars "s")),
               .lit false (chars ":"), .rep stop 1 none false])

/-- The escaped-slash JSON-key capture `(https?:\\\/\\\/[^\"]+)`. -/
def jsonKeyUrlGrp : RE :=
  .grp (reCat [.lit true (chars "http"), .opt (.lit true (chars "s")),
               .lit false (chars ":"), .lit false (chars "\\/\\/"),
               .rep (fun c => c != '"') 1 none false])

/-- One JSON-key image pattern `"KEY"\s*:\s*"(https?:\\\/\\\/[^\"]+)"`. -/
def jsonKeyImageRe (key : Str) : RE :=
  reCat [.lit true ('"' :: key ++ [ '"' ]), reWs, .lit false (chars ":"), reWs,
         .lit false (chars "\""), jsonKeyUrlGrp, .lit false (chars "\"")]

/-- The ordered image pattern list (`patterns`, background line 142); the
flag marks the two dynamic-image attribute patterns. -/
def imagePatterns : List (Bool × RE) :=
  [(true, reCat [.lit true (chars "data-a-dynamic-image"), reWs, .lit false (chars "="),
                 reWs, .lit false (chars "\""),
                 .grp (.rep (fun c => c != '"') 1 none false), .lit false (chars "\"")]),
   (true, reCat [.lit true (chars "data-a-dynamic-image"), reWs, .lit false (chars "="),
                 reWs, .lit false (chars "'"),
                 .grp (.rep (fun c => c != '\'') 1 none false), .lit false (chars "'")]),
   (false, reCat [.lit true (chars "data-old-hires"), reWs, .lit false (chars "="), reWs,
                  .lit false (chars "\""), httpUrlGrp (fun c => c != '"'),
                  .lit false (chars "\"")]),
   (false, reCat [.lit true (chars "data-old-hires"), reWs, .lit false (chars "="), reWs,
                  .lit false (chars "'"), httpUrlGrp (fun c => c != '\''),
                  .lit false (chars "'")]),
   (false, reCat [.lit true (chars "id=\"landingImage\""),
                  .rep (fun c => c != '>') 1 none false, .lit true (chars "src=\""),
                  httpUrlGrp (fun c => c != '"'), .lit false (chars "\"")]),
   (false, reCat [.lit true (chars "id='landingImage'"),
                  .rep (fun c => c != '>') 1 none false, .lit true (chars "src='"),
                  httpUrlGrp (fun c => c != '\''), .lit false (chars "'")]),
   (false, jsonKeyImageRe (chars "landingImage")),
   (false, jsonKeyImageRe (chars "mainImage")),
   (false, jsonKeyImageRe (chars "hiRes")),
   (false, jsonKeyImageRe (chars "large")),
   (false, jsonKeyImageRe (chars "mainUrl")),
   (false, jsonKeyImageRe (chars "displayUrl"))]

/-- The pattern loop of `extractImageUrlFromHtml`. -/
def imagePatternLoop (html : Str) : List (Bool × RE) → Option Str
  | [] => none
  | (isDyn, r) :: rest =>
    match (reFind r html).bind (fun t => cap1 t.2.2) with
    | none => imagePatternLoop html rest
    | some raw =>
      if raw.isEmpty then imagePatternLoop html rest
      else if isDyn then
        match dynamicImageValue raw with
        | some u => some u
        | none => imagePatternLoop html rest
      else some (unescapeSlashes raw)

/-- Regex `https?:\/\/m\.media-amazon\.com\/images\/I\/[^\"'\s]+\.(?:jpg|jpeg|png|webp)` (`i`). -/
def cdnImageRe : RE :=
  reCat [.lit true (chars "http"), .opt (.lit true (chars "s")),
         .lit true (chars "://m.media-amazon.com/images/I/"),
         .rep (fun c => c != '"' && c != '\'' && !isJsWhitespace c) 1 none false,
         .lit false (chars "."),
         .alt (.lit true (chars "jpg"))
           (.alt (.lit true (chars "jpeg"))
             (.alt (.lit true (chars "png")) (.lit true (chars "webp"))))]

/-- Meta-tag pattern with the name before the content attribute. -/
def metaRe1 (name : Str) : RE :=
  reCat [.lit true (chars "<meta"), .rep (fun c => c != '>') 1 none false,
         .alt (.lit true (chars "property")) (.lit true (chars "name")),
         .lit false (chars "="), .cls isQuoteChar, .lit true name, .cls isQuoteChar,
         .rep (fun c => c != '>') 1 none false, .lit true (chars "content="),
         .cls isQuoteChar, .grp (.rep (fun c => c != '"' && c != '\'') 1 none false),
         .cls isQuoteChar, .rep (fun c => c != '>') 0 none false,
         .lit false (chars ">")]

/-- Meta-tag pattern with the content attribute first. -/
def metaRe2 (name : Str) : RE :=
  reCat [.lit true (chars "<meta"), .rep (fun c => c != '>') 1 none false,
         .lit true (chars "content="), .cls isQuoteChar,
         .grp (.rep (fun c => c != '"' && c != '\'') 1 none false), .cls isQuoteChar,
         .rep (fun c => c != '>') 1 none false,
         .alt (.lit true (chars "property")) (.lit true (chars "name")),
         .lit false (chars "="), .cls isQuoteChar, .lit true name, .cls isQuoteChar,
         .rep (fun c => c != '>') 0 none false, .lit false (chars ">")]

/-- The ordered Open Graph / Twitter meta names tried last. -/
def metaImageNames : List Str :=
  [chars "og:image:secure_url", chars "og:image", chars "twitter:image"]

/-- The meta-tag extraction loop. -/
def metaImageSearch (html : Str) : List Str → Option Str
  | [] => none
  | name :: rest =>
    match (reFind (metaRe1 name) html).bind (fun t => cap1 t.2.2) with
    | some c => some c
    | none =>
      match (reFind (metaRe2 name) html).bind (fun t => cap1 t.2.2) with
      | some c => some c
      | none => metaImageSearch html rest

/-- Embedding of `extractImageUrlFromHtml` (background line 126). -/
def extractImageUrlFromHtml (html : Str) : Option Str :=
  if html.isEmpty then none
  else if hasNoiseMarkers html then none
  else
    match imagePatternLoop html imagePatterns with
    | some u => some u
    | none =>
      match reFind cdnImageRe html with
      | some (i, len, _) => some (reMatchedText html i len)
      | none => metaImageSearch html metaImageNames

/-! ## The FAIRFINDZ_RESOLVE_PRODUCT_META handler (background line 650)

Network effects are modelled by passing the outcome of each fetch as an
explicit oracle argument; the handler itself is then a pure function of
the product URL and those outcomes. -/

/-- Outcome of one `fetch`: network failure, a non-success status, or a
successful response with markup text. -/
inductive FetchOutcome where
  | fail
  | notOk
  | ok (html : Str)
deriving DecidableEq

/-- The message response `{ rating, reviewCount, priceText }`. -/
structure MetaResponse where
  rating : Option ℚ
  reviewCount : Option ℚ
  priceText : Option Str
deriving DecidableEq

/-- The handler's observable behaviour: its response and how many
mobile-variant fetches it attempted. -/
structure ResolveMetaResult where
  response : MetaResponse
  mobileFetchCount : Nat
deriving DecidableEq

/-- The desktop price after the plausibility filter
(`if (typeof priceText === "string" && !isPlausible…) priceText = null`). -/
def validatedDesktopPrice (html : Str) : Option Str :=
  match extractPriceFromHtml html with
  | none => none
  | some p => if isPlausibleAmazonPriceText p then some p else none

/-- The `numeric > 0 && numeric < 5` test on a price text (false when the
numeric parse is `NaN`). -/
def inUnitPriceRange (p : Str) : Bool :=
  match jsParsePriceNum p with
  | none => false
  | some n => decide (0 < n) && decide (n < 5)

/-- The mobile-fallback price: extraction chain on the mobile markup,
accepted only when plausible and at least 5. -/
def mobileFallbackPrice (mobile : FetchOutcome) : Option Str :=
  match mobile with
  | .ok mh =>
    match (extractPriceFromMobileHtml mh).orElse (fun _ => extractPriceFromHtml mh) with
    | none => none
    | some mp =>
      match (if isPlausibleAmazonPriceText mp then some mp else none),
            jsParsePriceNum mp with
      | some v, some n => if 5 ≤ n then some v else none
      | _, _ => none
  | _ => none

/-- Embedding of the `FAIRFINDZ_RESOLVE_PRODUCT_META` handler (background
line 650): guard the URL, extract from the desktop markup, validate the
price, attempt one mobile fetch when a plausible unit-range price and an
ASIN are present, and finally discard any surviving unit-range price. -/
def resolveProductMeta (productUrl : Str) (desktop mobile : FetchOutcome) :
    ResolveMetaResult :=
  if productUrl.isEmpty || !isAmazonUrl productUrl then ⟨⟨none, none, none⟩, 0⟩
  else
    match desktop with
    | .fail => ⟨⟨none, none, none⟩, 0⟩
    | .notOk => ⟨⟨none, none, none⟩, 0⟩
    | .ok html =>
      let rr := extractRatingReviewFromHtml html
      let p1 := validatedDesktopPrice html
      let step2 : Option Str × Nat :=
        match p1 with
        | some p =>
          if inUnitPriceRange p then
            match extractAsinFromUrl productUrl with
            | some _ =>
              (match mobileFallbackPrice mobile with
               | some v => (some v, 1)
               | none => (some p, 1))
            | none => (some p, 0)
          else (some p, 0)
        | none => (none, 0)
      let p3 : Option Str :=
        match step2.1 with
        | some p => if inUnitPriceRange p then none else some p
        | none => none
      let pfinal : Option Str :=
        match p3 with
        | some p => if p.isEmpty then none else some p
        | none => none
      ⟨⟨rr.rating, rr.reviewCount, pfinal⟩, step2.2⟩

/-! ## Navigation-aware state (content.js lines 1489-1518, 2367-2428)

The module-level mutable state is modelled as a record, and the two
relevant steps — the URL-change handler and the delayed-toast timer
callback — as pure transitions over it. -/

/-- The module-level recommendation state of the content script. -/
structure RecState where
  cachedAmazonInfo : Option PageInfo
  cachedMatches : Option (List ScoredEntry)
  cachedUrl : Option Str
  cachedAsin : Option Str
  toastInitialized : Bool
  toastClosedByUser : Bool
  toastPresent : Bool
  lastObservedUrl : Option Str
deriving DecidableEq

/-- Embedding of `closeToast` (content.js line 2055): the toast element
is removed and the guard flag cleared. -/
def closeToastStep (st : RecState) : RecState :=
  { st with toastPresent := false, toastInitialized := false }

/-- Embedding of `resetRecommendationStateForNavigation` (line 1500):
clear every cache, close the toast, and report that the badge-clearing
message was sent. -/
def resetRecommendationStateForNavigation (st : RecState) : RecState × Bool :=
  (closeToastStep
    { st with cachedAmazonInfo := none, cachedMatches := none, cachedUrl := none,
              cachedAsin := none, toastInitialized := false,
              toastClosedByUser := false },
   true)

/-- Result of one `onPossibleUrlChange` step: the new state, whether the
badge-clear message was sent, and whether recomputation
(`logProductPageStatus`) was triggered. -/
structure NavStepResult where
  st : RecState
  clearBadgeSent : Bool
  recomputeRequested : Bool
deriving DecidableEq

/-- Embedding of `onPossibleUrlChange` (line 1512). -/
def onPossibleUrlChange (st : RecState) (href : Str) : NavStepResult :=
  if st.lastObservedUrl == some href then ⟨st, false, false⟩
  else
    let st1 := { st with lastObservedUrl := some href }
    let (st2, badge) := resetRecommendationStateForNavigation st1
    ⟨st2, badge, true⟩

/-- Embedding of the delayed-toast timer callback (lines 2418-2428):
whether `createToast` is invoked, given the state at firing time, the
current location, and the match list captured at computation time. -/
def toastTimerFires (st : RecState) (isProductPageNow : Bool) (currentHref : Str)
    (capturedTop : List ScoredEntry) : Bool :=
  if !isProductPageNow then false
  else if st.cachedUrl.isSome && st.cachedUrl != some currentHref then false
  else
    let currentAsin := extractAmazonAsinFromUrl currentHref
    if st.cachedAsin.isSome && currentAsin.isSome && st.cachedAsin != currentAsin then
      false
    else if capturedTop.isEmpty then false
    else true

/-! ## The product-page status step (content.js lines 2367-2428) -/

/-- Observable outcome of the product-page branch of
`logProductPageStatus`. -/
inductive PageStatusOutcome where
  | notProductPage
  | skipInDatabase
  | computed (info : PageInfo) (matchRes : MatchResult)
deriving DecidableEq

/-- The effects of one `logProductPageStatus` pass. -/
structure PageStatusResult where
  outcome : PageStatusOutcome
  stopFlashingSent : Bool
  clearBadgeSent : Bool
  toastClosed : Bool
deriving DecidableEq

/-- Embedding of the decision structure of `logProductPageStatus`: on a
product page, a catalog hit for the current ASIN stops flashing, clears
the badge, closes the toast and skips extraction and matching entirely;
otherwise page facts are extracted (passed here as an argument, since
they come from the live DOM) and matched. -/
def logProductPageStatusStep (href : Str) (isProductPageNow : Bool)
    (products : List DbProduct) (extracted : PageInfo) : PageStatusResult :=
  if !isProductPageNow then ⟨.notProductPage, false, true, false⟩
  else if isCurrentAmazonProductInDatabase href products then
    ⟨.skipInDatabase, true, true, true⟩
  else
    ⟨.computed extracted (matchProducts extracted products 3), false, false, false⟩

/-! ## Claim-side comparison definitions

These follow the wording of the specification (not the source); each is
compared against the corresponding source embedding in the theorems. -/

/-- The additive score exactly as the specification words it, with the
top rating tier starting at 4.8 and no collagen intent rule. -/
def claimedAdditiveScore (p : DbProduct) (info : PageInfo) : ℤ :=
  (if info.category != chars "unknown" && p.category == info.category then 60 else 20) +
  12 * ((matchedKeywordsOf p info).length : ℤ) +
  (if brandMatchesB p info then 20 else 0) +
  (if mkRat 48 10 ≤ p.rating then 10 else if mkRat 45 10 ≤ p.rating then 7
   else if mkRat 42 10 ≤ p.rating then 4 else if 4 ≤ p.rating then 2 else 0) +
  reviewTier p.reviewCount

/-- The accepted price shape exactly as the claim words it: `$`, then
digits with optional comma separators, then `.`, then exactly two decimal
digits — with no whitespace anywhere in the string. -/
def claimedPlausibleForm (s : Str) : Bool :=
  match s with
  | '$' :: c :: rest =>
    c.isDigit &&
    (match rest.dropWhile isDigitOrComma with
     | '.' :: d1 :: d2 :: [] => d1.isDigit && d2.isDigit
     | _ => false)
  | _ => false

/-- The final segment of the amended price shape: a decimal point and
exactly two digits ending the string. -/
def tailShape (v : Str) : Bool :=
  match v with
  | cd :: d1 :: d2 :: [] => ('.' == cd) && d1.isDigit && d2.isDigit
  | _ => false

/-- The amended price shape: the plausibility filter first trims, and the
regex allows whitespace between `$` and the first digit. -/
def amendedPlausibleForm (s : Str) : Bool :=
  match jsTrim s with
  | c0 :: r1 =>
    ('$' == c0) &&
    (match r1.dropWhile isJsWhitespace with
     | c :: r3 => c.isDigit && tailShape (r3.dropWhile isDigitOrComma)
     | [] => false)
  | [] => false

/-- The image allow-list predicate as the spec words it: an `https` URL
whose host is the image host or one of its subdomains. -/
def specAllowListedImageUrl (s : Str) : Bool :=
  match jsUrlParse s with
  | none => false
  | some u =>
    u.protocol == chars "https:" &&
    (u.hostname == chars "m.media-amazon.com" ||
     endsWithStr u.hostname (chars ".m.media-amazon.com"))

/-! ## Concrete inputs used by counterexamples and witnesses -/

/-- A neutral base catalog entry for building concrete test entries. -/
def baseProduct : DbProduct :=
  { id := chars "id1", name := chars "name", brand := chars "brand"
    category := chars "cat", price := [], rating := 0, reviewCount := 0
    imageUrl := [], productUrl := [], description := [], badges := []
    amazonKeywords := [], amazonCategories := [], availability := none }

/-- A neutral base page-facts record for building concrete test pages. -/
def basePageInfo : PageInfo :=
  { category := chars "unknown", title := [], breadcrumbs := [], features := []
    description := [], priceText := [], combinedText := [], pageDomains := none }

/-- A page whose title + breadcrumbs hit no domain keyword list. -/
def w1Info : PageInfo := { basePageInfo with
    title := chars "zzz gadget" }

/-- A minimal in-stock entry (coffee domain) for the unclassified-page witness. -/
def w1Prod : DbProduct :=
  { baseProduct with
    name := chars "espresso blend", category := chars "coffee" }

/-- A candidate whose only keyword is the generic word `coffee`. -/
def w2Prod : DbProduct :=
  { baseProduct with
    amazonKeywords := [chars "coffee"], brand := chars "brandx" }

/-- A coffee-domain page whose text contains only the generic match. -/
def w2Info : PageInfo :=
  { basePageInfo with
    title := chars "coffee maker"
    combinedText := chars "coffee maker"
    pageDomains := some (detectDomainsFromText (chars "coffee maker")) }

/-- Counterexample entry for the rating tiers: rating exactly 4.8. -/
def cxProdRating : DbProduct :=
  { baseProduct with
    name := chars "widget", brand := chars "brandx"
    category := chars "catA", rating := mkRat 48 10
    amazonKeywords := [chars "mushroom"] }

/-- Counterexample page for the rating tiers: permissive coffee domain,
no collagen intent, one non-generic keyword match. -/
def cxInfoRating : PageInfo :=
  { basePageInfo with
    title := chars "mushroom coffee"
    combinedText := chars "mushroom coffee"
    pageDomains := some (detectDomainsFromText (chars "mushroom coffee")) }

/-- Counterexample entry for the collagen intent rule: cross-brand,
non-collagen. -/
def cxProdCollagen : DbProduct :=
  { baseProduct with
    name := chars "widget", brand := chars "brandx"
    category := chars "catA", amazonKeywords := [chars "mushroom"] }

/-- Counterexample page for the collagen intent rule: supplements page
about collagen peptides. -/
def cxInfoCollagen : PageInfo :=
  { basePageInfo with
    title := chars "collagen peptides powder"
    combinedText := chars "mushroom collagen powder"
    pageDomains := some (detectDomainsFromText (chars "collagen peptides powder")) }

/-- The claim's JSON-price scenario: a unit `displayPrice` of `$1.33`
near `/ounce` and a clean `displayPrice` of `$15.99` in the same window. -/
def c5Html : Str :=
  chars "a\"priceToPay\" b \"displayPrice\": \"$1.33\" ($1.33 /ounce) c \"displayPrice\": \"$15.99\" d"

/-- A window holding a coupon-context `displayPrice` (`$20.00`) and, more
than 160 characters later, a clean `displayPrice` (`$15.99`). -/
def c5CouponHtml : Str :=
  chars "\"priceToPay\" coupon \"displayPrice\": \"$20.00\" xxxxxxxxxxxxxxxxxxxxxxxxxxxxxxxxxxxxxxxxxxxxxxxxxxxxxxxxxxxxxxxxxxxxxxxxxxxxxxxxxxxxxxxxxxxxxxxxxxxxxxxxxxxxxxxxxxxxxxxxxxxxxxxxxxxxxxxxxxxxxxxxxxxxxxxxx \"displayPrice\": \"$15.99\""

/-- A window where a whole-dollar value precedes a value with cents. -/
def c5CentsHtml : Str :=
  chars "\"priceToPay\" \"displayPrice\": \"$25\" \"displayPrice\": \"$15.99\""

/-- Minimal window for the candidate-property witness. -/
def w5Window : Str := chars "\"displayPrice\": \"$15.99\""

/-- The single candidate collected from `w5Window`. -/
def w5Cand : PriceCand := ⟨chars "$15.99", mkRat 1599 100⟩

/-- Product URL carrying an ASIN. -/
def c6UrlA : Str := chars "https://www.amazon.com/dp/B012345678"

/-- Amazon product URL without any ASIN. -/
def c6UrlB : Str := chars "https://www.amazon.com/"

/-- Desktop markup whose extracted price is `$1.3` (unit range, but not
plausibility-formatted). -/
def c6DesktopA : Str := chars "priceToPay x class=\"a-offscreen\">$1.3<"

/-- Desktop markup whose extracted price is `$1.33` (plausible and in the
unit range). -/
def c6DesktopB : Str := chars "priceToPay x class=\"a-offscreen\">$1.33<"

/-- Mobile markup carrying a plausible main price. -/
def c6MobileHtml : Str := chars "id=\"newBuyBoxPrice\">$19.99<"

/-- Markup containing an interstitial marker. -/
def w7Html : Str := chars "x Robot Check $15.99 class=\"a-offscreen\">$15.99< y"

/-- Markup whose first image pattern yields an http URL on a foreign host. -/
def c8Html : Str := chars "<img data-old-hires=\"http://evil.example/a.jpg\">"

/-- A computed recommendation state for item A. -/
def w9St : RecState :=
  { cachedAmazonInfo := some w1Info, cachedMatches := some []
    cachedUrl := some (chars "https://www.amazon.com/dp/B000000000A")
    cachedAsin := some (chars "B000000000")
    toastInitialized := false, toastClosedByUser := false, toastPresent := true
    lastObservedUrl := some (chars "https://www.amazon.com/dp/B000000000A") }

/-- The navigated-to URL of item B. -/
def w9Href : Str := chars "https://www.amazon.com/dp/B111111111"

/-- A non-empty captured match list. -/
def w9Top : List ScoredEntry := [⟨w1Prod, 32, 1, [chars "espresso"]⟩]

/-- A catalog entry whose product URL carries the current page's ASIN. -/
def w10Prod : DbProduct :=
  { baseProduct with
    productUrl := chars "https://www.amazon.com/dp/B012345678" }

/-- The current page URL for the catalog-hit witness. -/
def w10Href : Str := chars "https://www.amazon.com/dp/b012345678?ref=x"

/-! ## Theorems -/

set_option maxHeartbeats 2000000

/-- Every entry of the full scored list of `matchProducts` has a strictly
positive score (the `score > 0` filter). -/
theorem matchProducts_scored_pos (info : PageInfo) (products : List DbProduct)
    (limit : Nat) (e : ScoredEntry)
    (he : e ∈ (matchProducts info products limit).scored) : 0 < e.score := by
  unfold matchProducts at he
  by_cases h1 : (detectDomainsFromText (pageDomainTextOf info)).isEmptyDom = true
  · rw [if_pos h1] at he
    exact absurd he (List.not_mem_nil e)
  · rw [if_neg h1] at he
    by_cases h2 : ((inStockFilter products).any
        (fun p => domainsOverlap (detectDomainsFromText (pageDomainTextOf info))
          (getProductDomains p))) = true
    · have h2' : ¬((!(inStockFilter products).any
          (fun p => domainsOverlap (detectDomainsFromText (pageDomainTextOf info))
            (getProductDomains p))) = true) := by
        simp [h2]
      rw [if_neg h2'] at he
      simp only [List.mem_mergeSort, List.mem_filter] at he
      exact of_decide_eq_true he.2
    · have h2' : (!(inStockFilter products).any
          (fun p => domainsOverlap (detectDomainsFromText (pageDomainTextOf info))
            (getProductDomains p))) = true := by
        simp [Bool.not_eq_true] at h2 ⊢
        exact h2
      rw [if_pos h2'] at he
      exact absurd he (List.not_mem_nil e)

/-- C1: if the page's title + breadcrumb text yields an empty domain set
(an unclassified page), `matchProducts` returns an empty result — both
the capped top list and the full scored list are empty — for every
catalog (including non-empty in-stock ones) and every limit. -/
theorem c1_unclassified_page_matches_nothing (info : PageInfo)
    (products : List DbProduct) (limit : Nat)
    (h : (detectDomainsFromText (pageDomainTextOf info)).isEmptyDom = true) :
    matchProducts info products limit = ⟨[], []⟩ := by
  unfold matchProducts
  rw [if_pos h]

/-- Witness for C1 at a concrete unclassified page and non-empty catalog. -/
theorem c1_unclassified_page_matches_nothing_witness :
    (detectDomainsFromText (pageDomainTextOf w1Info)).isEmptyDom = true ∧
    matchProducts w1Info [w1Prod] 3 = ⟨[], []⟩ :=
  ⟨by decide, c1_unclassified_page_matches_nothing w1Info [w1Prod] 3 (by decide)⟩

/-- C2: `scoreProduct` returns score 0 — and any candidate scoring 0 is
excluded from ranking by the `score > 0` filter, whose output is all of
positive score — whenever the candidate has zero non-generic keyword
matches, or fewer than 2 total keyword matches while neither brand
affinity nor one of the permissive page domains (oral-care, skincare,
household, coffee, supplements) holds; under brand affinity or a
permissive domain the gate threshold is a single keyword match. -/
theorem c2_minimum_evidence_gate (p : DbProduct) (info : PageInfo)
    (h : nonGenericMatchCount p info = 0 ∨
      ((matchedKeywordsOf p info).length < 2 ∧ brandMatchesB p info = false ∧
        allowSingleKeywordByDomainB info = false)) :
    (scoreProduct p info).score = 0 ∧
    ∀ products limit e, e ∈ (matchProducts info products limit).scored →
      0 < e.score := by
  refine ⟨?_, fun products limit e he =>
    matchProducts_scored_pos info products limit e he⟩
  unfold scoreProduct
  rcases h with h0 | ⟨hlen, hb, ha⟩
  · have h1 : nonGenericMatchCount p info < 1 := by omega
    simp [h1]
  · have hmin : minKeywordMatchesOf p info = 2 := by
      unfold minKeywordMatchesOf
      rw [hb, ha]
      rfl
    rw [hmin]
    simp [hlen]

/-- Witness for C2: a candidate whose only match is the generic word
`coffee` on a known coffee page scores 0. -/
theorem c2_minimum_evidence_gate_witness :
    nonGenericMatchCount w2Prod w2Info = 0 ∧ (scoreProduct w2Prod w2Info).score = 0 :=
  ⟨by decide, (c2_minimum_evidence_gate w2Prod w2Info (Or.inl (by decide))).1⟩

/-- C3 counterexample: at rating exactly 4.8 the code awards the +7 tier
(its top tier needs a full 5), so the score is 39 while the claim's
additive sum is 42; and on a collagen-intent page a gate-passing
cross-brand non-collagen candidate scores 0, not the claimed sum 32. -/
theorem c3_additive_scoring_counterexample :
    (scoreProduct cxProdRating cxInfoRating).score = 39 ∧
    claimedAdditiveScore cxProdRating cxInfoRating = 42 ∧
    (scoreProduct cxProdCollagen cxInfoCollagen).score = 0 ∧
    claimedAdditiveScore cxProdCollagen cxInfoCollagen = 32 ∧
    pageWantsCollagenB cxInfoCollagen = true := by
  decide

/-- C3 amended: for every candidate that passes the minimum-evidence gate
and survives the collagen intent rule, the score is the additive sum of
+80 when the page wants collagen and the candidate is a collagen item,
+60 on an exact known-category match (else +20), +12 per keyword match,
+20 for brand affinity, the rating tiers +10 at 5, +7 at ≥ 4.5, +4 at
≥ 4.2, +2 at ≥ 4.0, and the review tiers +10 at ≥ 5000, +7 at ≥ 1000,
+4 at ≥ 300, +2 at ≥ 100. -/
theorem c3_additive_scoring_amended (p : DbProduct) (info : PageInfo)
    (hgate : minKeywordMatchesOf p info ≤ (matchedKeywordsOf p info).length ∧
      1 ≤ nonGenericMatchCount p info)
    (hcol : pageWantsCollagenB info = true →
      (productIntentCollagenB p = true ∨ brandMatchesB p info = true)) :
    (scoreProduct p info).score =
      (if pageWantsCollagenB info && productIntentCollagenB p then 80 else 0) +
      (if info.category != chars "unknown" && p.category == info.category
        then 60 else 20) +
      12 * ((matchedKeywordsOf p info).length : ℤ) +
      (if brandMatchesB p info then 20 else 0) +
      ratingTier p.rating + reviewTier p.reviewCount := by
  obtain ⟨hg1, hg2⟩ := hgate
  have hn1 : ¬((matchedKeywordsOf p info).length < minKeywordMatchesOf p info) := by
    omega
  have hn2 : ¬(nonGenericMatchCount p info < 1) := by omega
  unfold scoreProduct
  have hcond :
      (decide ((matchedKeywordsOf p info).length < minKeywordMatchesOf p info) ||
        decide (nonGenericMatchCount p info < 1)) = false := by
    simp [hn1, hn2]
  rw [hcond]
  simp only [Bool.false_eq_true, if_false]
  have hcol2 : (pageWantsCollagenB info && !productIntentCollagenB p &&
      !brandMatchesB p info) = false := by
    cases hw : pageWantsCollagenB info with
    | false => simp
    | true =>
      rcases hcol hw with hc | hb
      · simp [hc]
      · simp [hb]
  rw [hcol2]
  simp only [Bool.false_eq_true, if_false]
  rfl

/-- Witness for the amended C3 theorem at the rating-4.8 entry. -/
theorem c3_additive_scoring_amended_witness :
    (minKeywordMatchesOf cxProdRating cxInfoRating ≤
      (matchedKeywordsOf cxProdRating cxInfoRating).length ∧
     1 ≤ nonGenericMatchCount cxProdRating cxInfoRating) ∧
    (scoreProduct cxProdRating cxInfoRating).score =
      (if pageWantsCollagenB cxInfoRating && productIntentCollagenB cxProdRating
        then 80 else 0) +
      (if cxInfoRating.category != chars "unknown" &&
          cxProdRating.category == cxInfoRating.category then 60 else 20) +
      12 * ((matchedKeywordsOf cxProdRating cxInfoRating).length : ℤ) +
      (if brandMatchesB cxProdRating cxInfoRating then 20 else 0) +
      ratingTier cxProdRating.rating + reviewTier cxProdRating.reviewCount :=
  ⟨⟨by decide, by decide⟩,
   c3_additive_scoring_amended cxProdRating cxInfoRating ⟨by decide, by decide⟩
     (by intro h; exact absurd h (by decide))⟩

/-- C5: in the claim's scenario (a `$1.33` displayPrice near `/ounce` and
a clean `$15.99` elsewhere in the anchored window) the extracted price is
`$15.99`; likewise a coupon-context value and a whole-dollar value are
passed over for the clean cents value; and in general every candidate
collected in the anchored window has numeric value at least 5 and comes
from a position whose context is free of the coupon/savings/discount/
promo words. -/
theorem c5_json_price_block (w c : _) (hc : c ∈ displayPriceCandidates w) :
    extractPriceFromHtml c5Html = some (chars "$15.99") ∧
    extractPriceFromHtml c5CouponHtml = some (chars "$15.99") ∧
    extractPriceFromHtml c5CentsHtml = some (chars "$15.99") ∧
    ((5 : ℚ) ≤ c.numeric ∧
      ∃ i, (i, c.text) ∈ displayPriceMatches w ∧
        jsonCouponCtxB (displayCtxAt w i) = false) := by
  refine ⟨by decide, by decide, by decide, ?_⟩
  unfold displayPriceCandidates at hc
  rw [List.mem_filterMap] at hc
  obtain ⟨m, hm, hf⟩ := hc
  split at hf
  · exact absurd hf (by simp)
  · split at hf
    · exact absurd hf (by simp)
    · split at hf
      · exact absurd hf (by simp)
      · rename_i numeric _ h5 hcp
        have hceq : c = ⟨m.2, numeric⟩ := (Option.some_inj.mp hf).symm
        subst hceq
        refine ⟨le_of_not_lt h5, m.1, ?_, ?_⟩
        · simpa using hm
        · simpa using hcp

/-- Witness for C5's candidate property at a one-candidate window. -/
theorem c5_json_price_block_witness :
    w5Cand ∈ displayPriceCandidates w5Window ∧
    ((5 : ℚ) ≤ w5Cand.numeric ∧
      ∃ i, (i, w5Cand.text) ∈ displayPriceMatches w5Window ∧
        jsonCouponCtxB (displayCtxAt w5Window i) = false) :=
  ⟨by decide, (c5_json_price_block w5Window w5Cand (by decide)).2.2.2⟩

/-- C7: markup containing any interstitial/captcha marker (matched
case-insensitively as a substring) makes every extractor short-circuit
to no data: both price extractors and the image extractor return null
and the rating/review extractor returns `{ rating: null, reviewCount:
null }`. -/
theorem c7_noise_guard_short_circuits (html : Str)
    (h : ∃ m ∈ noiseMarkers, containsSub (jsToLowerCase html) m = true) :
    extractPriceFromHtml html = none ∧
    extractPriceFromMobileHtml html = none ∧
    extractImageUrlFromHtml html = none ∧
    extractRatingReviewFromHtml html = ⟨none, none⟩ := by
  have hn : hasNoiseMarkers html = true := by
    unfold hasNoiseMarkers
    rw [List.any_eq_true]
    exact h
  unfold extractPriceFromHtml extractPriceFromMobileHtml extractImageUrlFromHtml
    extractRatingReviewFromHtml
  by_cases he : html.isEmpty <;> simp [he, hn]

/-- Witness for C7 on a concrete robot-check page. -/
theorem c7_noise_guard_short_circuits_witness :
    containsSub (jsToLowerCase w7Html) (chars "robot check") = true ∧
    extractPriceFromHtml w7Html = none ∧
    extractPriceFromMobileHtml w7Html = none ∧
    extractImageUrlFromHtml w7Html = none ∧
    extractRatingReviewFromHtml w7Html = ⟨none, none⟩ :=
  ⟨by decide,
   (c7_noise_guard_short_circuits w7Html
     ⟨chars "robot check", by decide, by decide⟩).1,
   (c7_noise_guard_short_circuits w7Html
     ⟨chars "robot check", by decide, by decide⟩).2.1,
   (c7_noise_guard_short_circuits w7Html
     ⟨chars "robot check", by decide, by decide⟩).2.2.1,
   (c7_noise_guard_short_circuits w7Html
     ⟨chars "robot check", by decide, by decide⟩).2.2.2⟩

/-- C9: a delayed toast whose cached URL no longer equals the current
URL, or whose cached item identifier no longer equals the current one,
is not created; and on every detected URL change the cached page facts,
cached matches and any present toast are invalidated — with the badge
cleared — before recomputation is triggered. -/
theorem c9_stale_results_discarded (st : RecState) (isProd : Bool) (href : Str)
    (top : List ScoredEntry) :
    ((∃ u, st.cachedUrl = some u ∧ u ≠ href) →
      toastTimerFires st isProd href top = false) ∧
    ((∃ a b, st.cachedAsin = some a ∧ extractAmazonAsinFromUrl href = some b ∧
        a ≠ b) →
      toastTimerFires st isProd href top = false) ∧
    (∀ h2, st.lastObservedUrl ≠ some h2 →
      (onPossibleUrlChange st h2).st.cachedAmazonInfo = none ∧
      (onPossibleUrlChange st h2).st.cachedMatches = none ∧
      (onPossibleUrlChange st h2).st.cachedUrl = none ∧
      (onPossibleUrlChange st h2).st.cachedAsin = none ∧
      (onPossibleUrlChange st h2).st.toastPresent = false ∧
      (onPossibleUrlChange st h2).clearBadgeSent = true ∧
      (onPossibleUrlChange st h2).recomputeRequested = true) := by
  refine ⟨?_, ?_, ?_⟩
  · rintro ⟨u, hu, hne⟩
    unfold toastTimerFires
    cases isProd with
    | false => simp
    | true =>
      have hcond : (st.cachedUrl.isSome && st.cachedUrl != some href) = true := by
        rw [hu]
        simp [hne]
      simp [hcond]
  · rintro ⟨a, b, ha, hb, hne⟩
    unfold toastTimerFires
    cases isProd with
    | false => simp
    | true =>
      by_cases h1 : (st.cachedUrl.isSome && st.cachedUrl != some href) = true
      · simp [h1]
      · have hcond : (st.cachedAsin.isSome &&
            (extractAmazonAsinFromUrl href).isSome &&
            st.cachedAsin != extractAmazonAsinFromUrl href) = true := by
          rw [ha, hb]
          simp [hne]
        simp [h1, hcond]
  · intro h2 hne
    unfold onPossibleUrlChange
    have hcond : (st.lastObservedUrl == some h2) = false := by
      simpa using hne
    rw [hcond]
    simp [resetRecommendationStateForNavigation, closeToastStep]

/-- Witness for C9: item A's timer does not fire on item B's page, and
the navigation reset clears the caches. -/
theorem c9_stale_results_discarded_witness :
    (w9St.cachedUrl = some (chars "https://www.amazon.com/dp/B000000000A") ∧
      chars "https://www.amazon.com/dp/B000000000A" ≠ w9Href) ∧
    toastTimerFires w9St true w9Href w9Top = false ∧
    w9St.lastObservedUrl ≠ some w9Href ∧
    (onPossibleUrlChange w9St w9Href).st.cachedMatches = none ∧
    (onPossibleUrlChange w9St w9Href).st.toastPresent = false ∧
    (onPossibleUrlChange w9St w9Href).recomputeRequested = true :=
  ⟨⟨by decide, by decide⟩,
   (c9_stale_results_discarded w9St true w9Href w9Top).1
     ⟨chars "https://www.amazon.com/dp/B000000000A", by decide, by decide⟩,
   by decide,
   ((c9_stale_results_discarded w9St true w9Href w9Top).2.2 w9Href (by decide)).2.1,
   ((c9_stale_results_discarded w9St true w9Href w9Top).2.2 w9Href (by decide)).2.2.2.2.1,
   ((c9_stale_results_discarded w9St true w9Href w9Top).2.2 w9Href (by decide)).2.2.2.2.2.2⟩

/-- C10: when the current page URL carries an ASIN equal to that of some
catalog entry's product URL, the page-status pass skips extraction and
matching entirely, stops the flashing indicator, clears the badge and
closes any pending toast. -/
theorem c10_catalog_product_page_skips (href : Str) (products : List DbProduct)
    (extracted : PageInfo) (asin : Str)
    (hcur : extractAmazonAsinFromUrl href = some asin)
    (hdb : ∃ p ∈ products, extractAmazonAsinFromUrl p.productUrl = some asin) :
    logProductPageStatusStep href true products extracted =
      ⟨.skipInDatabase, true, true, true⟩ := by
  have hmem : isCurrentAmazonProductInDatabase href products = true := by
    unfold isCurrentAmazonProductInDatabase
    rw [hcur, List.any_eq_true]
    obtain ⟨p, hp, he⟩ := hdb
    refine ⟨p, hp, ?_⟩
    rw [he]
    simp
  unfold logProductPageStatusStep
  simp [hmem]

/-- Witness for C10 with a catalog entry for the current ASIN (the URL
pattern is case-insensitive and the identifier is normalized to upper
case). -/
theorem c10_catalog_product_page_skips_witness :
    extractAmazonAsinFromUrl w10Href = some (chars "B012345678") ∧
    extractAmazonAsinFromUrl w10Prod.productUrl = some (chars "B012345678") ∧
    logProductPageStatusStep w10Href true [w10Prod] w1Info =
      ⟨.skipInDatabase, true, true, true⟩ :=
  ⟨by decide, by decide,
   c10_catalog_product_page_skips w10Href [w10Prod] w1Info (chars "B012345678")
     (by decide) ⟨w10Prod, List.mem_cons_self w10Prod [], by decide⟩⟩

/-- A validated desktop price passed the plausibility filter. -/
theorem validatedDesktopPriceGood (html p : Str)
    (h : validatedDesktopPrice html = some p) :
    isPlausibleAmazonPriceText p = true := by
  unfold validatedDesktopPrice at h
  split at h
  · exact absurd h (by simp)
  · split at h
    · injection h with h
      subst h
      assumption
    · exact absurd h (by simp)

/-- An accepted mobile-fallback price is plausible and outside the unit
range. -/
theorem mobileFallbackPrice_valid (mobile : FetchOutcome) (v : Str)
    (h : mobileFallbackPrice mobile = some v) :
    isPlausibleAmazonPriceText v = true ∧ inUnitPriceRange v = false := by
  cases mobile with
  | fail => exact absurd h (by simp [mobileFallbackPrice])
  | notOk => exact absurd h (by simp [mobileFallbackPrice])
  | ok mh =>
    simp only [mobileFallbackPrice] at h
    split at h
    · exact absurd h (by simp)
    · split at h
      · rename_i v2 n hv hn
        split at h
        · rename_i h5
          injection h with h
          subst h
          split at hv
          · injection hv with hv
            subst hv
            refine ⟨by assumption, ?_⟩
            unfold inUnitPriceRange
            rw [hn]
            have hnot : ¬ n < (5 : ℚ) := not_lt.mpr h5
            simp [hnot]
          · exact absurd hv (by simp)
        · exact absurd h (by simp)
      · exact absurd h (by simp)

/-- A plausibility-accepted price text is non-empty. -/
theorem plausible_nonempty (p : Str) (h : isPlausibleAmazonPriceText p = true) :
    p.isEmpty = false := by
  cases p with
  | nil => exact absurd h (by decide)
  | cons c cs => rfl

/-- C6 counterexample: the mobile fetch is gated on the desktop price
passing the plausibility filter and on the URL carrying an ASIN, not
merely on the extracted numeric value lying in (0, 5).  A desktop price
of `$1.3` (numeric 1.3, not plausibility-formatted) triggers no mobile
fetch; a plausible `$1.33` on an ASIN-less Amazon URL triggers none
either. -/
theorem c6_resolver_counterexample :
    extractPriceFromHtml c6DesktopA = some (chars "$1.3") ∧
    inUnitPriceRange (chars "$1.3") = true ∧
    isAmazonUrl c6UrlA = true ∧
    (extractAsinFromUrl c6UrlA).isSome = true ∧
    (resolveProductMeta c6UrlA (.ok c6DesktopA) .notOk).mobileFetchCount = 0 ∧
    extractPriceFromHtml c6DesktopB = some (chars "$1.33") ∧
    isPlausibleAmazonPriceText (chars "$1.33") = true ∧
    inUnitPriceRange (chars "$1.33") = true ∧
    isAmazonUrl c6UrlB = true ∧
    (resolveProductMeta c6UrlB (.ok c6DesktopB) .notOk).mobileFetchCount = 0 := by
  decide

/-- C6 amended: exactly one mobile-variant fetch is attempted precisely
when the URL guard passes, the desktop fetch succeeded, the desktop
price passed the plausibility filter with numeric value strictly between
0 and 5, and the product URL carries an ASIN; and the resolver never
responds with a price text that fails the plausibility filter or whose
numeric value lies strictly between 0 and 5. -/
theorem c6_resolver_amended (productUrl : Str) (desktop mobile : FetchOutcome) :
    ((resolveProductMeta productUrl desktop mobile).mobileFetchCount = 1 ↔
      (productUrl.isEmpty = false ∧ isAmazonUrl productUrl = true ∧
        ∃ html, desktop = .ok html ∧
          ∃ p, validatedDesktopPrice html = some p ∧ inUnitPriceRange p = true ∧
            (extractAsinFromUrl productUrl).isSome = true)) ∧
    (∀ p, (resolveProductMeta productUrl desktop mobile).response.priceText = some p →
      isPlausibleAmazonPriceText p = true ∧ inUnitPriceRange p = false) := by
  unfold resolveProductMeta
  by_cases hg : (productUrl.isEmpty || !isAmazonUrl productUrl) = true
  · rw [if_pos hg]
    constructor
    · constructor
      · intro h
        exact absurd h (by decide)
      · rintro ⟨h1, h2, -⟩
        rw [h1, h2] at hg
        exact absurd hg (by decide)
    · intro p hp
      exact absurd hp (by simp)
  · rw [if_neg hg]
    have hg1 : productUrl.isEmpty = false ∧ isAmazonUrl productUrl = true := by
      constructor
      · cases hie : productUrl.isEmpty with
        | false => rfl
        | true => exact absurd (by rw [hie]; rfl) hg
      · cases hia : isAmazonUrl productUrl with
        | true => rfl
        | false => exact absurd (by rw [hia]; simp) hg
    cases desktop with
    | fail =>
      dsimp only
      refine ⟨⟨fun h => absurd h (by decide), ?_⟩, fun p hp => absurd hp (by simp)⟩
      rintro ⟨-, -, html, hhtml, -⟩
      exact absurd hhtml (by simp)
    | notOk =>
      dsimp only
      refine ⟨⟨fun h => absurd h (by decide), ?_⟩, fun p hp => absurd hp (by simp)⟩
      rintro ⟨-, -, html, hhtml, -⟩
      exact absurd hhtml (by simp)
    | ok html =>
      dsimp only
      cases hp1 : validatedDesktopPrice html with
      | none =>
        simp only [hp1]
        refine ⟨⟨fun h => absurd h (by decide), ?_⟩, fun p hp => absurd hp (by simp)⟩
        rintro ⟨-, -, html2, hhtml, p, hvp, -⟩
        injection hhtml with hhtml
        subst hhtml
        rw [hp1] at hvp
        exact absurd hvp (by simp)
      | some p0 =>
        cases hur : inUnitPriceRange p0 with
        | false =>
          simp only [hp1, hur, Bool.false_eq_true, if_false, reduceIte]
          constructor
          · constructor
            · intro h
              exact absurd h (by decide)
            · rintro ⟨-, -, html2, hhtml, p, hvp, hup, -⟩
              injection hhtml with hhtml
              subst hhtml
              rw [hp1] at hvp
              injection hvp with hvp
              subst hvp
              rw [hur] at hup
              exact absurd hup (by decide)
          · intro p hp
            have hne : p0.isEmpty = false :=
              plausible_nonempty p0 (validatedDesktopPriceGood html p0 hp1)
            rw [hne] at hp
            simp only [Bool.false_eq_true, if_false] at hp
            injection hp with hp
            subst hp
            exact ⟨validatedDesktopPriceGood html _ hp1, hur⟩
        | true =>
          cases ha : extractAsinFromUrl productUrl with
          | none =>
            simp only [hp1, hur, ha, Bool.false_eq_true, if_false, reduceIte]
            constructor
            · constructor
              · intro h
                exact absurd h (by decide)
              · rintro ⟨-, -, html2, hhtml, p, hvp, hup, hsome⟩
                exact absurd hsome (by decide)
            · intro p hp
              exact absurd hp (by simp)
          | some asin =>
            cases hm : mobileFallbackPrice mobile with
            | none =>
              simp only [hp1, hur, ha, hm, Bool.false_eq_true, if_false, reduceIte]
              refine ⟨⟨fun _ => ⟨hg1.1, hg1.2, html, rfl, p0, hp1, hur, rfl⟩,
                fun _ => by trivial⟩, ?_⟩
              intro p hp
              exact absurd hp (by simp)
            | some v =>
              have hv := mobileFallbackPrice_valid mobile v hm
              simp only [hp1, hur, ha, hm, Bool.false_eq_true, if_false, reduceIte]
              refine ⟨⟨fun _ => ⟨hg1.1, hg1.2, html, rfl, p0, hp1, hur, rfl⟩,
                fun _ => by trivial⟩, ?_⟩
              intro p hp
              rw [hv.2] at hp
              simp only [Bool.false_eq_true, if_false] at hp
              have hne : v.isEmpty = false := plausible_nonempty v hv.1
              rw [hne] at hp
              simp only [Bool.false_eq_true, if_false] at hp
              injection hp with hp
              subst hp
              exact ⟨hv.1, hv.2⟩

/-- Witness for the amended C6 theorem: a unit-range plausible desktop
price with an ASIN URL yields exactly one mobile fetch, and the accepted
mobile price is plausible and not unit-range. -/
theorem c6_resolver_amended_witness :
    (resolveProductMeta c6UrlA (.ok c6DesktopB) (.ok c6MobileHtml)).mobileFetchCount
      = 1 ∧
    isPlausibleAmazonPriceText (chars "$19.99") = true ∧
    inUnitPriceRange (chars "$19.99") = false :=
  ⟨(c6_resolver_amended c6UrlA (.ok c6DesktopB) (.ok c6MobileHtml)).1.mpr
     ⟨by decide, by decide, c6DesktopB, rfl, chars "$1.33", by decide, by decide,
      by decide⟩,
   ((c6_resolver_amended c6UrlA (.ok c6DesktopB) (.ok c6MobileHtml)).2
     (chars "$19.99") (by decide)).1,
   ((c6_resolver_amended c6UrlA (.ok c6DesktopB) (.ok c6MobileHtml)).2
     (chars "$19.99") (by decide)).2⟩

/-- ASCII lower-casing is idempotent. -/
theorem charToLowerIdem (c : Char) : c.toLower.toLower = c.toLower := by
  unfold Char.toLower
  by_cases h : c.toNat ≥ 65 ∧ c.toNat ≤ 90
  · rw [if_pos h]
    have hv : Nat.isValidChar (c.toNat + 32) := by
      rcases h with ⟨h1, h2⟩
      exact Or.inl (by omega)
    have ht : (Char.ofNat (c.toNat + 32)).toNat = c.toNat + 32 := by
      unfold Char.ofNat
      rw [dif_pos hv]
      rfl
    rw [if_neg]
    rw [ht]
    rintro ⟨-, h90⟩
    omega
  · rw [if_neg h, if_neg h]

/-- Lower-casing a string is idempotent. -/
theorem jsToLowerCaseIdem (l : Str) : jsToLowerCase (jsToLowerCase l) = jsToLowerCase l := by
  unfold jsToLowerCase
  rw [List.map_map]
  apply List.map_congr_left
  intro c _
  exact charToLowerIdem c

/-- The hostname produced by the URL parser is already lower-cased. -/
theorem jsUrlParse_hostname_lower (s : Str) (u : JsUrl) (h : jsUrlParse s = some u) :
    jsToLowerCase u.hostname = u.hostname := by
  simp only [jsUrlParse] at h
  split at h
  · exact absurd h (by simp)
  · split at h
    · exact absurd h (by simp)
    · split at h
      · split at h
        · exact absurd h (by simp)
        · split at h
          · exact absurd h (by simp)
          · injection h with h
            subst h
            exact jsToLowerCaseIdem _
      · exact absurd h (by simp)

/-- C8 counterexample: the image extractor returns page-derived URLs
without any host or scheme validation — here an `http` URL on a foreign
host — while the allow-list predicate rejects that URL. -/
theorem c8_extracted_image_not_validated :
    extractImageUrlFromHtml c8Html = some (chars "http://evil.example/a.jpg") ∧
    specAllowListedImageUrl (chars "http://evil.example/a.jpg") = false ∧
    isValidAmazonImageUrl (chars "http://evil.example/a.jpg") = false := by
  decide

/-- C8 amended: catalog `imageUrl` validation (`isValidAmazonImageUrl`)
accepts exactly the https URLs whose host is `m.media-amazon.com` or a
subdomain of it, rejecting http URLs, foreign hosts and malformed URLs;
image URLs extracted from fetched markup, however, are returned without
this validation. -/
theorem c8_image_allowlist_amended :
    (∀ s, isValidAmazonImageUrl s = specAllowListedImageUrl s) ∧
    isValidAmazonImageUrl (chars "https://m.media-amazon.com/images/I/x.jpg") = true ∧
    isValidAmazonImageUrl (chars "https://a.m.media-amazon.com/x.jpg") = true ∧
    isValidAmazonImageUrl (chars "http://m.media-amazon.com/x.jpg") = false ∧
    isValidAmazonImageUrl (chars "https://xm.media-amazon.com/x.jpg") = false ∧
    isValidAmazonImageUrl (chars "https://evil.example/x.jpg") = false ∧
    isValidAmazonImageUrl (chars "not a url") = false := by
  refine ⟨?_, by decide⟩
  intro s
  unfold isValidAmazonImageUrl specAllowListedImageUrl
  cases hu : jsUrlParse s with
  | none => rfl
  | some u =>
    have hl : jsToLowerCase u.hostname = u.hostname := jsUrlParse_hostname_lower s u hu
    unfold hostMatchesDotSuffix
    dsimp only
    rw [hl]
    rw [show chars ".m.media-amazon.com" = '.' :: chars "m.media-amazon.com" from rfl]
    exact Bool.and_comm _ _

/-- Collapsing `tryCounts` when every count fails. -/
theorem tryCountsNone (f : Nat → Option MatchRes) :
    ∀ (ns : List Nat), (∀ m ∈ ns, f m = none) → tryCounts f ns = none
  | [], _ => rfl
  | n :: ns, h => by
    unfold tryCounts
    rw [h n (List.mem_cons_self n ns)]
    show tryCounts f ns = none
    exact tryCountsNone f ns (fun m hm => h m (List.mem_cons_of_mem n hm))

/-- Collapsing `tryCounts` to its head when the tail fails. -/
theorem tryCountsHead (f : Nat → Option MatchRes) (n : Nat) (ns : List Nat)
    (h : ∀ m ∈ ns, f m = none) : tryCounts f (n :: ns) = f n := by
  unfold tryCounts
  cases hf : f n with
  | some v => rfl
  | none =>
    show tryCounts f ns = none
    exact tryCountsNone f ns h

/-- Inside the `takeWhile` run, every drop starts with a class character. -/
theorem dropLtTakeWhileHead (p : Char → Bool) :
    ∀ (cs : Str) (m : Nat), m < (cs.takeWhile p).length →
      ∃ c rest, cs.drop m = c :: rest ∧ p c = true
  | [], m, h => absurd h (by simp)
  | c :: cs, m, h => by
    rw [List.takeWhile_cons] at h
    cases hp : p c with
    | false =>
      rw [hp] at h
      exact absurd h (by simp)
    | true =>
      rw [hp] at h
      simp only [if_true, List.length_cons] at h
      cases m with
      | zero => exact ⟨c, cs, rfl, hp⟩
      | succ m2 =>
        have := dropLtTakeWhileHead p cs m2 (by omega)
        simpa using this

/-- Dropping the `takeWhile` run is `dropWhile`. -/
theorem dropTakeWhileLen (p : Char → Bool) :
    ∀ (cs : Str), cs.drop ((cs.takeWhile p).length) = cs.dropWhile p
  | [] => rfl
  | c :: cs => by
    rw [List.takeWhile_cons, List.dropWhile_cons]
    cases hp : p c with
    | true =>
      simp only [reduceIte, List.length_cons, List.drop_succ_cons]
      exact dropTakeWhileLen p cs
    | false =>
      simp only [Bool.false_eq_true, if_false, reduceIte, List.length_nil,
        List.drop_zero]

/-- One step of the matcher through a literal at the head of a sequence. -/
theorem seqLitStep (ci : Bool) (s2 : Str) (R : RE) (prev : Option Char) (cs : Str)
    (caps : Caps) (k : MatchCont) :
    matchRE (.seq (.lit ci s2) R) prev cs caps k =
      if litTest ci s2 cs then
        matchRE R (prevAfter prev cs s2.length) (cs.drop s2.length) caps k
      else none := rfl

/-- One step of the matcher through a class at the head of a sequence
(non-empty input). -/
theorem seqClsStepCons (p : Char → Bool) (R : RE) (prev : Option Char) (c : Char)
    (rest : Str) (caps : Caps) (k : MatchCont) :
    matchRE (.seq (.cls p) R) prev (c :: rest) caps k =
      if p c then matchRE R (some c) rest caps k else none := rfl

/-- One step of the matcher through a class on empty input. -/
theorem seqClsStepNil (p : Char → Bool) (R : RE) (prev : Option Char)
    (caps : Caps) (k : MatchCont) :
    matchRE (.seq (.cls p) R) prev [] caps k = none := rfl

/-- A greedy unbounded class repetition whose continuation fails on every
class character consumes exactly the maximal run. -/
theorem matchRE_repShift (p : Char → Bool) (R : RE) (prev : Option Char) (cs : Str)
    (caps : Caps) (k : MatchCont)
    (hfail : ∀ prev2 c rest caps2, p c = true →
      matchRE R prev2 (c :: rest) caps2 k = none) :
    matchRE (.seq (.rep p 0 none false) R) prev cs caps k =
      matchRE R (prevAfter prev cs ((cs.takeWhile p).length)) (cs.dropWhile p)
        caps k := by
  have hshape : matchRE (.seq (.rep p 0 none false) R) prev cs caps k =
      tryCounts
        (fun n => matchRE R (prevAfter prev cs n) (cs.drop n) caps k)
        ((List.range ((cs.takeWhile p).length + 1)).map
          (fun i => (cs.takeWhile p).length - i)) := by
    show matchRE (.rep p 0 none false) prev cs caps
        (fun p2 cs2 caps2 => matchRE R p2 cs2 caps2 k) = _
    rw [matchRE]
    dsimp only
    rw [if_neg (Nat.not_lt_zero _)]
    rfl
  rw [hshape, List.range_succ_eq_map, List.map_cons, Nat.sub_zero, List.map_map]
  rw [tryCountsHead]
  · rw [dropTakeWhileLen]
  · intro m hm
    rw [List.mem_map] at hm
    obtain ⟨i, hi, hmi⟩ := hm
    rw [List.mem_range] at hi
    have hm2 : m < (cs.takeWhile p).length := by
      rw [← hmi]
      show (cs.takeWhile p).length - (i + 1) < (cs.takeWhile p).length
      omega
    obtain ⟨c, rest, hdrop, hpc⟩ := dropLtTakeWhileHead p cs m hm2
    rw [hdrop]
    exact hfail _ c rest caps hpc

/-- A JS whitespace character is not a digit. -/
theorem wsNotDigit (c : Char) (h : isJsWhitespace c = true) : c.isDigit = false := by
  unfold isJsWhitespace at h
  simp only [Bool.or_eq_true, Bool.and_eq_true, beq_iff_eq, decide_eq_true_iff] at h
  have hval : c.toNat < 48 ∨ 57 < c.toNat := by
    casesm* _ ∨ _
    all_goals first
      | (subst_vars; decide)
      | omega
  unfold Char.isDigit
  rcases hval with hv | hv
  · have hn : ¬ ((48 : UInt32) ≤ c.val) := by
      intro hle
      have hle2 : (48 : Nat) ≤ c.toNat := hle
      omega
    simp [hn]
  · have hn : ¬ (c.val ≤ (57 : UInt32)) := by
      intro hle
      have hle2 : c.toNat ≤ (57 : Nat) := hle
      omega
    simp [hn]

/-- A digit-or-comma character is not the decimal point. -/
theorem digitCommaNotDot (c : Char) (h : isDigitOrComma c = true) :
    (('.' : Char) == c) = false := by
  unfold isDigitOrComma at h
  rw [Bool.or_eq_true] at h
  rw [beq_eq_false_iff_ne]
  intro he
  rw [← he] at h
  exact absurd h (by decide)

/-- The continuation after the whitespace run fails on any whitespace
character (it needs a digit first). -/
theorem plausibleWsFail (k : MatchCont) (prev2 : Option Char) (c : Char) (rest : Str)
    (caps2 : Caps) (hc : isJsWhitespace c = true) :
    matchRE plausibleDigitsRe prev2 (c :: rest) caps2 k = none := by
  unfold plausibleDigitsRe
  rw [seqClsStepCons, wsNotDigit c hc]
  simp

/-- The continuation after the digit/comma run fails on any digit-or-comma
character (it needs the decimal point first). -/
theorem plausibleDcFail (k : MatchCont) (prev2 : Option Char) (c : Char) (rest : Str)
    (caps2 : Caps) (hc : isDigitOrComma c = true) :
    matchRE plausibleTailRe prev2 (c :: rest) caps2 k = none := by
  unfold plausibleTailRe
  rw [seqLitStep]
  have hl : litTest false (chars ".") (c :: rest) = false := by
    rw [show chars "." = ['.'] from rfl]
    simp [litTest, charEqCi, digitCommaNotDot c hc]
  rw [hl]
  simp

/-- The matcher on the decimal-point tail: exactly a dot and two final
digits. -/
theorem plausibleTailChar (prev : Option Char) (caps : Caps) (k : MatchCont)
    (hk : ∀ a b c2, (k a b c2).isSome = true) (v : Str) :
    (matchRE plausibleTailRe prev v caps k).isSome = tailShape v := by
  unfold plausibleTailRe tailShape
  rw [show (chars ".") = [('.' : Char)] from rfl]
  match v with
  | [] => rfl
  | [cd] =>
    cases hcd : ('.' == cd) <;>
      simp [seqLitStep, litTest, charEqCi, hcd, seqClsStepNil]
  | [cd, d1] =>
    cases hcd : ('.' == cd) <;> cases hd1 : d1.isDigit <;>
      simp [seqLitStep, litTest, charEqCi, hcd, seqClsStepCons, hd1, seqClsStepNil]
  | [cd, d1, d2] =>
    cases hcd : ('.' == cd) <;> cases hd1 : d1.isDigit <;> cases hd2 : d2.isDigit <;>
      simp [seqLitStep, litTest, charEqCi, hcd, seqClsStepCons, hd1, hd2, matchRE, hk]
  | cd :: d1 :: d2 :: e :: rest =>
    cases hcd : ('.' == cd) <;> cases hd1 : d1.isDigit <;> cases hd2 : d2.isDigit <;>
      simp [seqLitStep, litTest, charEqCi, hcd, seqClsStepCons, hd1, hd2, matchRE]

/-- `reRunAt` succeeds exactly when the underlying match does. -/
theorem reRunAtIsSome (r : RE) (prev : Option Char) (cs : Str) :
    (reRunAt r prev cs).isSome =
      (matchRE r prev cs [] (fun p rest caps => some (p, rest, caps))).isSome := by
  unfold reRunAt
  cases h : matchRE r prev cs [] (fun p rest caps => some (p, rest, caps)) with
  | none => simp
  | some v =>
    obtain ⟨a, rest, caps⟩ := v
    simp

/-- C4: the claim's accepted shape (`$` immediately followed by digits)
is narrower than the code: the regex `^\$\s*\d[\d,]*\.\d\x7b2\x7d$` allows
whitespace between the dollar sign and the first digit, so the filter
accepts a price text the claimed format rejects. -/
theorem c4_plausibility_counterexample :
    isPlausibleAmazonPriceText (chars "$ 15.99") = true ∧
    claimedPlausibleForm (chars "$ 15.99") = false := by
  exact ⟨by decide, by decide⟩

/-- C4 amended: for every price text, the plausibility filter accepts
exactly the trimmed strings consisting of `$`, optional JS whitespace, a
digit, further digits or commas, then a dot and exactly two final digits;
in particular the dollar sign is mandatory and a missing or long cents
part is rejected, so the claim's examples behave as stated. -/
theorem c4_plausibility_amended :
    (∀ s, isPlausibleAmazonPriceText s = amendedPlausibleForm s) ∧
    isPlausibleAmazonPriceText (chars "$10") = false ∧
    isPlausibleAmazonPriceText (chars "$1,234") = false ∧
    isPlausibleAmazonPriceText (chars "10.00") = false ∧
    isPlausibleAmazonPriceText (chars "$15.99") = true ∧
    isPlausibleAmazonPriceText (chars "$1,234.00") = true := by
  refine ⟨?_, by decide⟩
  intro s
  unfold isPlausibleAmazonPriceText reTestAt0 amendedPlausibleForm
  rw [reRunAtIsSome]
  rw [show plausiblePriceRe =
    .seq (.lit false (chars "$")) (.seq reWs plausibleDigitsRe) from rfl]
  rw [show (chars "$") = [('$' : Char)] from rfl]
  generalize jsTrim s = t
  cases t with
  | nil => rfl
  | cons c0 r1 =>
    dsimp only
    rw [seqLitStep]
    have hl : litTest false [('$' : Char)] (c0 :: r1) = ('$' == c0) := by
      simp [litTest, charEqCi]
    rw [hl]
    cases hc : ('$' == c0) with
    | false => simp [hc]
    | true =>
      rw [if_pos rfl]
      simp only [List.length_cons, List.length_nil, List.drop_succ_cons,
        List.drop_zero, Bool.true_and]
      rw [show reWs = RE.rep isJsWhitespace 0 none false from rfl]
      rw [matchRE_repShift isJsWhitespace plausibleDigitsRe _ _ _ _
        (fun prev2 c rest caps2 hc2 => plausibleWsFail _ prev2 c rest caps2 hc2)]
      cases hu : r1.dropWhile isJsWhitespace with
      | nil =>
        rw [show plausibleDigitsRe = .seq (.cls Char.isDigit)
          (.seq (.rep isDigitOrComma 0 none false) plausibleTailRe) from rfl]
        rw [seqClsStepNil]
        rfl
      | cons d u =>
        rw [show plausibleDigitsRe = .seq (.cls Char.isDigit)
          (.seq (.rep isDigitOrComma 0 none false) plausibleTailRe) from rfl]
        rw [seqClsStepCons]
        cases hd : d.isDigit with
        | false => simp [hd]
        | true =>
          rw [if_pos rfl]
          rw [matchRE_repShift isDigitOrComma plausibleTailRe _ _ _ _
            (fun p2 c r c2 h2 => plausibleDcFail _ p2 c r c2 h2)]
          rw [plausibleTailChar _ _ (fun p rest caps => some (p, rest, caps))
            (fun _ _ _ => rfl)]
          simp [hd]
